import Mathlib

/-!
Shallow embedding of the cellular crate: lib.rs (rules), flat.rs (2D
automata) and deep.rs (3D automata).

Machine integers are modelled as Nat with explicit wrap-around where the
source performs arithmetic on them: usize arithmetic reduces modulo
2 ^ 64 (the release-profile wrapping semantics of Rust integer overflow),
u8 arithmetic modulo 256.  HashMap values are modelled as association
lists (List (key, value)); lookup returns the value of the first entry
with the given key.
-/

/-- Modulus of usize arithmetic, 2 ^ 64 written as a literal. -/
def usizeMod : Nat := 18446744073709551616

/-- Modulus of u8 arithmetic. -/
def u8Mod : Nat := 256

/-- Wrapping usize subtraction, the release-profile meaning of a - b. -/
def usizeSub (a b : Nat) : Nat := (a + (usizeMod - b % usizeMod)) % usizeMod

/-- Wrapping usize addition, the release-profile meaning of a + b. -/
def usizeAdd (a b : Nat) : Nat := (a + b) % usizeMod

/-- Wrapping u8 subtraction, the release-profile meaning of a - b on u8. -/
def u8Sub (a b : Nat) : Nat := (a + (u8Mod - b % u8Mod)) % u8Mod

/-- Lookup in an association list, modelling HashMap.get: the value of
the first entry whose key equals the requested key. -/
def lookup {κ : Type} [DecidableEq κ] (v : κ) : List (κ × Nat) → Option Nat
  | [] => none
  | p :: t => if p.1 = v then some p.2 else lookup v t

/-- Rule from src/src/lib.rs.  Range start and end are modelled by the
fields lo and hi (end is a Lean keyword); the range is inclusive on lo
and exclusive on hi, as in Rust. -/
inductive Rule : Type where
  | Single (n : Nat)
  | Range (lo hi : Nat)
  | Many (l : List Nat)
deriving DecidableEq

/-- Method from src/src/lib.rs. -/
inductive Method : Type where
  | Moore
  | VonNeumann
deriving DecidableEq

/-- AutomataRules from src/src/lib.rs. -/
structure AutomataRules : Type where
  to_survive : Rule
  to_be_born : Rule
  cell_states : Nat
  neighbor_method : Method
deriving DecidableEq

/-- AutomataRules::new from src/src/lib.rs: a plain constructor, it
performs no validation. -/
def AutomataRules.new (to_survive to_be_born : Rule) (cell_states : Nat)
    (neighbor_method : Method) : AutomataRules :=
  { to_survive := to_survive, to_be_born := to_be_born,
    cell_states := cell_states, neighbor_method := neighbor_method }

/-- The early-return rule validation loop shared by flat and deep
Automaton::new: true exactly when the match statement over the rule
would return Err(max_neighbors).  Single checks the value, Range checks
both endpoints, Many checks every element. -/
def ruleCheckFails (r : Rule) (max_neighbors : Nat) : Bool :=
  match r with
  | Rule.Single s => max_neighbors < s
  | Rule.Range lo hi => max_neighbors < lo || max_neighbors < hi
  | Rule.Many m => m.any (fun s => max_neighbors < s)

/-- The predicate a Rule denotes over a neighbor count (Rust match /
Range::contains / Vec::contains semantics). -/
def ruleMatches (r : Rule) (c : Nat) : Bool :=
  match r with
  | Rule.Single g => c == g
  | Rule.Range lo hi => decide (lo ≤ c) && decide (c < hi)
  | Rule.Many gs => gs.contains c

namespace Flat

/-- Vec2 from src/src/flat.rs; components are usize values. -/
structure Vec2 : Type where
  x : Nat
  y : Nat
deriving DecidableEq

/-- Automaton from src/src/flat.rs, with the HashMap of cells modelled
as an association list. -/
structure Automaton : Type where
  rules : AutomataRules
  bounds : Vec2
  cells : List (Vec2 × Nat)
deriving DecidableEq

/-- The max_neighbors computation in flat Automaton::new. -/
def maxNeighbors (m : Method) : Nat :=
  match m with
  | Method.Moore => 8
  | Method.VonNeumann => 4

/-- The nested population loops of flat Automaton::new: for each x in
0..bounds.x, for each y in 0..bounds.y, insert cell_states - 1 (u8
arithmetic) when the coordinate is in start_cells, else 0. -/
def initCells (rules : AutomataRules) (bounds : Vec2)
    (start_cells : List Vec2) : List (Vec2 × Nat) :=
  (List.range bounds.x).flatMap fun x =>
    (List.range bounds.y).map fun y =>
      (Vec2.mk x y,
        if Vec2.mk x y ∈ start_cells then u8Sub rules.cell_states 1 else 0)

/-- Automaton::new from src/src/flat.rs: validate to_survive then
to_be_born against max_neighbors, returning Err(max_neighbors) on the
first violation, then build the dense cell map from the bounds and the
seed. -/
def Automaton.new (rules : AutomataRules) (bounds : Vec2)
    (start_cells : List Vec2) : Except Nat Automaton :=
  let max_neighbors := maxNeighbors rules.neighbor_method
  if ruleCheckFails rules.to_survive max_neighbors then
    Except.error max_neighbors
  else if ruleCheckFails rules.to_be_born max_neighbors then
    Except.error max_neighbors
  else
    Except.ok { rules := rules, bounds := bounds,
                cells := initCells rules bounds start_cells }

/-- The poss_neighbors list built in flat tick for a coordinate v: the
four primary directions, then the four diagonal directions when the
method is Moore.  The source writes v.y - 1 etc. on usize, which is
wrapping subtraction. -/
def possNeighbors (v : Vec2) (m : Method) : List Vec2 :=
  [Vec2.mk v.x (usizeSub v.y 1),
   Vec2.mk v.x (usizeAdd v.y 1),
   Vec2.mk (usizeSub v.x 1) v.y,
   Vec2.mk (usizeAdd v.x 1) v.y]
  ++ match m with
     | Method.Moore =>
       [Vec2.mk (usizeSub v.x 1) (usizeSub v.y 1),
        Vec2.mk (usizeSub v.x 1) (usizeAdd v.y 1),
        Vec2.mk (usizeAdd v.x 1) (usizeSub v.y 1),
        Vec2.mk (usizeAdd v.x 1) (usizeAdd v.y 1)]
     | Method.VonNeumann => []

/-- The counting loop of flat tick phase 1: for each possible neighbor,
increment the count when it is a key of the cell map with state > 0. -/
def countLive (cells : List (Vec2 × Nat)) (l : List Vec2) : Nat :=
  l.foldl
    (fun count pn =>
      match lookup pn cells with
      | some s => if 0 < s then count + 1 else count
      | none => count)
    0

/-- Whether a coordinate counts as a live neighbor: it is a key of the
cell map and its state is positive. -/
def liveAt (cells : List (Vec2 × Nat)) (u : Vec2) : Bool :=
  match lookup u cells with
  | some s => decide (0 < s)
  | none => false

/-- Phase 1 of flat tick: the neighbor_counts map, one entry per cell,
computed against the pre-tick cells. -/
def neighborCounts (a : Automaton) : List (Vec2 × Nat) :=
  a.cells.map fun p =>
    (p.1, countLive a.cells (possNeighbors p.1 a.rules.neighbor_method))

/-- Phase 2 of flat tick for a single entry: the closure body of the
iter_mut().for_each call, giving the post-tick state of a cell from its
pre-tick state s and the neighbor_counts map. -/
def nextState (rules : AutomataRules) (counts : List (Vec2 × Nat))
    (v : Vec2) (s : Nat) : Nat :=
  if s = 0 then
    match rules.to_be_born with
    | Rule.Single goal =>
      match lookup v counts with
      | some c => if c = goal then u8Sub rules.cell_states 1 else s
      | none => s
    | Rule.Range lo hi =>
      match lookup v counts with
      | some c => if lo ≤ c ∧ c < hi then u8Sub rules.cell_states 1 else s
      | none => s
    | Rule.Many goals =>
      match lookup v counts with
      | some c => if c ∈ goals then u8Sub rules.cell_states 1 else s
      | none => s
  else if s = u8Sub rules.cell_states 1 then
    match rules.to_survive with
    | Rule.Single goal =>
      match lookup v counts with
      | some c => if c ≠ goal then u8Sub s 1 else s
      | none => 0
    | Rule.Range lo hi =>
      match lookup v counts with
      | some c => if ¬ (lo ≤ c ∧ c < hi) then u8Sub s 1 else s
      | none => 0
    | Rule.Many goals =>
      match lookup v counts with
      | some c => if ¬ (c ∈ goals) then u8Sub s 1 else s
      | none => 0
  else
    u8Sub s 1

/-- Automaton::tick from src/src/flat.rs: compute neighbor_counts from
the pre-tick cells, then replace every cell state in place. -/
def Automaton.tick (a : Automaton) : Automaton :=
  let counts := neighborCounts a
  { a with cells := a.cells.map fun p => (p.1, nextState a.rules counts p.1 p.2) }

/-- Iterated tick. -/
def tickN (k : Nat) (a : Automaton) : Automaton :=
  match k with
  | 0 => a
  | k + 1 => (tickN k a).tick

/-- Automaton::par_tick from src/src/flat.rs.  Its body is that of tick
with iter replaced by rayon par_iter; the unspecified parallel
enumeration order of the entries is modelled by arbitrary enumerations
order1 (phase 1) and order2 (phase 2) of the cell entries, with the
collect() barrier between the phases.  Lookups during counting go to the
shared pre-tick cells map, as in the source. -/
def Automaton.par_tick (a : Automaton)
    (order1 order2 : List (Vec2 × Nat)) : Automaton :=
  let counts := order1.map fun p =>
    (p.1, countLive a.cells (possNeighbors p.1 a.rules.neighbor_method))
  { a with cells := order2.map fun p => (p.1, nextState a.rules counts p.1 p.2) }

/-- Automaton::get_cells from src/src/flat.rs: a copy of the cell map
(cloning is the identity on immutable data). -/
def Automaton.get_cells (a : Automaton) : List (Vec2 × Nat) :=
  a.cells

/-- The coordinate enumeration order of the population loops: every
coordinate with x < bounds.x and y < bounds.y. -/
def boxList (bounds : Vec2) : List Vec2 :=
  (List.range bounds.x).flatMap fun x =>
    (List.range bounds.y).map fun y => Vec2.mk x y

/-- Adjacency as the specification defines it (section 4.3): full
(Moore) adjacency is every coordinate at offset in \x7b-1,0,+1\x7d on each
component, excluding the cell itself; face (VonNeumann) adjacency is
offset plus or minus 1 on exactly one component.  Stated over the
mathematical integers, i.e. a coordinate at component 0 has no neighbor
below it. -/
def specAdjacent (m : Method) (v u : Vec2) : Prop :=
  match m with
  | Method.Moore =>
    (u.x = v.x ∨ u.x + 1 = v.x ∨ u.x = v.x + 1) ∧
    (u.y = v.y ∨ u.y + 1 = v.y ∨ u.y = v.y + 1) ∧
    ¬ (u.x = v.x ∧ u.y = v.y)
  | Method.VonNeumann =>
    ((u.x + 1 = v.x ∨ u.x = v.x + 1) ∧ u.y = v.y) ∨
    (u.x = v.x ∧ (u.y + 1 = v.y ∨ u.y = v.y + 1))

instance (m : Method) (v u : Vec2) : Decidable (specAdjacent m v u) := by
  unfold specAdjacent
  cases m <;> infer_instance

end Flat

namespace Deep

/-- Vec3 from src/src/deep.rs; components are usize values. -/
structure Vec3 : Type where
  x : Nat
  y : Nat
  z : Nat
deriving DecidableEq

/-- Automaton from src/src/deep.rs, with the HashMap of cells modelled
as an association list. -/
structure Automaton : Type where
  rules : AutomataRules
  bounds : Vec3
  cells : List (Vec3 × Nat)
deriving DecidableEq

/-- The max_neighbors computation in deep Automaton::new. -/
def maxNeighbors (m : Method) : Nat :=
  match m with
  | Method.Moore => 26
  | Method.VonNeumann => 6

/-- The nested population loops of deep Automaton::new. -/
def initCells (rules : AutomataRules) (bounds : Vec3)
    (start_cells : List Vec3) : List (Vec3 × Nat) :=
  (List.range bounds.x).flatMap fun x =>
    (List.range bounds.y).flatMap fun y =>
      (List.range bounds.z).map fun z =>
        (Vec3.mk x y z,
          if Vec3.mk x y z ∈ start_cells then u8Sub rules.cell_states 1 else 0)

/-- Automaton::new from src/src/deep.rs. -/
def Automaton.new (rules : AutomataRules) (bounds : Vec3)
    (start_cells : List Vec3) : Except Nat Automaton :=
  let max_neighbors := maxNeighbors rules.neighbor_method
  if ruleCheckFails rules.to_survive max_neighbors then
    Except.error max_neighbors
  else if ruleCheckFails rules.to_be_born max_neighbors then
    Except.error max_neighbors
  else
    Except.ok { rules := rules, bounds := bounds,
                cells := initCells rules bounds start_cells }

/-- The poss_neighbors list built in deep tick for a coordinate v, in
source push order: six face directions, then (for Moore) the twelve
edge directions and the eight corner directions.  The source writes
v.x - 1 etc. on usize, which is wrapping subtraction. -/
def possNeighbors (v : Vec3) (m : Method) : List Vec3 :=
  [Vec3.mk (usizeSub v.x 1) v.y v.z,
   Vec3.mk (usizeAdd v.x 1) v.y v.z,
   Vec3.mk v.x (usizeSub v.y 1) v.z,
   Vec3.mk v.x (usizeAdd v.y 1) v.z,
   Vec3.mk v.x v.y (usizeSub v.z 1),
   Vec3.mk v.x v.y (usizeAdd v.z 1)]
  ++ match m with
     | Method.Moore =>
       [Vec3.mk v.x (usizeSub v.y 1) (usizeSub v.z 1),
        Vec3.mk v.x (usizeSub v.y 1) (usizeAdd v.z 1),
        Vec3.mk v.x (usizeAdd v.y 1) (usizeSub v.z 1),
        Vec3.mk v.x (usizeAdd v.y 1) (usizeAdd v.z 1),
        Vec3.mk (usizeSub v.x 1) v.y (usizeSub v.z 1),
        Vec3.mk (usizeSub v.x 1) v.y (usizeAdd v.z 1),
        Vec3.mk (usizeAdd v.x 1) v.y (usizeSub v.z 1),
        Vec3.mk (usizeAdd v.x 1) v.y (usizeAdd v.z 1),
        Vec3.mk (usizeSub v.x 1) (usizeSub v.y 1) v.z,
        Vec3.mk (usizeSub v.x 1) (usizeAdd v.y 1) v.z,
        Vec3.mk (usizeAdd v.x 1) (usizeSub v.y 1) v.z,
        Vec3.mk (usizeAdd v.x 1) (usizeAdd v.y 1) v.z,
        Vec3.mk (usizeSub v.x 1) (usizeSub v.y 1) (usizeSub v.z 1),
        Vec3.mk (usizeSub v.x 1) (usizeSub v.y 1) (usizeAdd v.z 1),
        Vec3.mk (usizeSub v.x 1) (usizeAdd v.y 1) (usizeSub v.z 1),
        Vec3.mk (usizeSub v.x 1) (usizeAdd v.y 1) (usizeAdd v.z 1),
        Vec3.mk (usizeAdd v.x 1) (usizeSub v.y 1) (usizeSub v.z 1),
        Vec3.mk (usizeAdd v.x 1) (usizeSub v.y 1) (usizeAdd v.z 1),
        Vec3.mk (usizeAdd v.x 1) (usizeAdd v.y 1) (usizeSub v.z 1),
        Vec3.mk (usizeAdd v.x 1) (usizeAdd v.y 1) (usizeAdd v.z 1)]
     | Method.VonNeumann => []

/-- The counting loop of deep tick phase 1. -/
def countLive (cells : List (Vec3 × Nat)) (l : List Vec3) : Nat :=
  l.foldl
    (fun count pn =>
      match lookup pn cells with
      | some s => if 0 < s then count + 1 else count
      | none => count)
    0

/-- Whether a coordinate counts as a live neighbor. -/
def liveAt (cells : List (Vec3 × Nat)) (u : Vec3) : Bool :=
  match lookup u cells with
  | some s => decide (0 < s)
  | none => false

/-- Phase 1 of deep tick: the neighbor_counts map. -/
def neighborCounts (a : Automaton) : List (Vec3 × Nat) :=
  a.cells.map fun p =>
    (p.1, countLive a.cells (possNeighbors p.1 a.rules.neighbor_method))

/-- Phase 2 of deep tick for a single entry. -/
def nextState (rules : AutomataRules) (counts : List (Vec3 × Nat))
    (v : Vec3) (s : Nat) : Nat :=
  if s = 0 then
    match rules.to_be_born with
    | Rule.Single goal =>
      match lookup v counts with
      | some c => if c = goal then u8Sub rules.cell_states 1 else s
      | none => s
    | Rule.Range lo hi =>
      match lookup v counts with
      | some c => if lo ≤ c ∧ c < hi then u8Sub rules.cell_states 1 else s
      | none => s
    | Rule.Many goals =>
      match lookup v counts with
      | some c => if c ∈ goals then u8Sub rules.cell_states 1 else s
      | none => s
  else if s = u8Sub rules.cell_states 1 then
    match rules.to_survive with
    | Rule.Single goal =>
      match lookup v counts with
      | some c => if c ≠ goal then u8Sub s 1 else s
      | none => 0
    | Rule.Range lo hi =>
      match lookup v counts with
      | some c => if ¬ (lo ≤ c ∧ c < hi) then u8Sub s 1 else s
      | none => 0
    | Rule.Many goals =>
      match lookup v counts with
      | some c => if ¬ (c ∈ goals) then u8Sub s 1 else s
      | none => 0
  else
    u8Sub s 1

/-- Automaton::tick from src/src/deep.rs. -/
def Automaton.tick (a : Automaton) : Automaton :=
  let counts := neighborCounts a
  { a with cells := a.cells.map fun p => (p.1, nextState a.rules counts p.1 p.2) }

/-- Iterated tick. -/
def tickN (k : Nat) (a : Automaton) : Automaton :=
  match k with
  | 0 => a
  | k + 1 => (tickN k a).tick

/-- Automaton::get_cells from src/src/deep.rs. -/
def Automaton.get_cells (a : Automaton) : List (Vec3 × Nat) :=
  a.cells

/-- The coordinate enumeration order of the population loops. -/
def boxList (bounds : Vec3) : List Vec3 :=
  (List.range bounds.x).flatMap fun x =>
    (List.range bounds.y).flatMap fun y =>
      (List.range bounds.z).map fun z => Vec3.mk x y z

/-- Adjacency as the specification defines it (section 4.3), for three
dimensions, over the mathematical integers. -/
def specAdjacent (m : Method) (v u : Vec3) : Prop :=
  match m with
  | Method.Moore =>
    (u.x = v.x ∨ u.x + 1 = v.x ∨ u.x = v.x + 1) ∧
    (u.y = v.y ∨ u.y + 1 = v.y ∨ u.y = v.y + 1) ∧
    (u.z = v.z ∨ u.z + 1 = v.z ∨ u.z = v.z + 1) ∧
    ¬ (u.x = v.x ∧ u.y = v.y ∧ u.z = v.z)
  | Method.VonNeumann =>
    ((u.x + 1 = v.x ∨ u.x = v.x + 1) ∧ u.y = v.y ∧ u.z = v.z) ∨
    (u.x = v.x ∧ (u.y + 1 = v.y ∨ u.y = v.y + 1) ∧ u.z = v.z) ∨
    (u.x = v.x ∧ u.y = v.y ∧ (u.z + 1 = v.z ∨ u.z = v.z + 1))

instance (m : Method) (v u : Vec3) : Decidable (specAdjacent m v u) := by
  unfold specAdjacent
  cases m <;> infer_instance

end Deep

/-- The validation condition as the specification words it: the rule
references a value exceeding the maximum neighbor count; for Range both
endpoints are checked, for Many every element. -/
def specRuleExceeds (r : Rule) (mx : Nat) : Prop :=
  match r with
  | Rule.Single s => mx < s
  | Rule.Range lo hi => mx < lo ∨ mx < hi
  | Rule.Many m => ∃ s ∈ m, mx < s

/-- A concrete 2 x 2 flat automaton with the Game of Life rules, used in
concrete evaluations. -/
def sampleFlat : Flat.Automaton :=
  { rules := { to_survive := Rule.Range 2 4, to_be_born := Rule.Single 3,
               cell_states := 2, neighbor_method := Method.Moore },
    bounds := Flat.Vec2.mk 2 2,
    cells := [(Flat.Vec2.mk 0 0, 1), (Flat.Vec2.mk 0 1, 1),
              (Flat.Vec2.mk 1 0, 0), (Flat.Vec2.mk 1 1, 0)] }

/-- A concrete 2 x 2 x 1 deep automaton used in concrete evaluations. -/
def sampleDeep : Deep.Automaton :=
  { rules := { to_survive := Rule.Single 1, to_be_born := Rule.Single 2,
               cell_states := 2, neighbor_method := Method.VonNeumann },
    bounds := Deep.Vec3.mk 2 2 1,
    cells := [(Deep.Vec3.mk 0 0 0, 1), (Deep.Vec3.mk 0 1 0, 0),
              (Deep.Vec3.mk 1 0 0, 0), (Deep.Vec3.mk 1 1 0, 1)] }

/-- A 1 x 1 flat automaton with four cell states holding one decaying
cell, used in concrete evaluations. -/
def sampleFlatDecay : Flat.Automaton :=
  { rules := { to_survive := Rule.Single 8, to_be_born := Rule.Single 8,
               cell_states := 4, neighbor_method := Method.Moore },
    bounds := Flat.Vec2.mk 1 1,
    cells := [(Flat.Vec2.mk 0 0, 2)] }

/-- A 1 x 1 x 1 deep automaton with four cell states holding one decaying
cell, used in concrete evaluations. -/
def sampleDeepDecay : Deep.Automaton :=
  { rules := { to_survive := Rule.Single 26, to_be_born := Rule.Single 26,
               cell_states := 4, neighbor_method := Method.Moore },
    bounds := Deep.Vec3.mk 1 1 1,
    cells := [(Deep.Vec3.mk 0 0 0, 2)] }

/-- A flat automaton whose cells are all dead, used in concrete
evaluations. -/
def sampleFlatZero : Flat.Automaton :=
  { rules := { to_survive := Rule.Range 2 4, to_be_born := Rule.Single 3,
               cell_states := 2, neighbor_method := Method.Moore },
    bounds := Flat.Vec2.mk 2 1,
    cells := [(Flat.Vec2.mk 0 0, 0), (Flat.Vec2.mk 1 0, 0)] }

/-- A deep automaton whose cells are all dead, used in concrete
evaluations. -/
def sampleDeepZero : Deep.Automaton :=
  { rules := { to_survive := Rule.Single 1, to_be_born := Rule.Single 2,
               cell_states := 2, neighbor_method := Method.VonNeumann },
    bounds := Deep.Vec3.mk 1 1 1,
    cells := [(Deep.Vec3.mk 0 0 0, 0)] }

/-- The Game of Life rule set. -/
def conwayRules : AutomataRules :=
  { to_survive := Rule.Range 2 4, to_be_born := Rule.Single 3,
    cell_states := 2, neighbor_method := Method.Moore }

/-- The flat automaton produced by Automaton::new with the Game of Life
rules, 2 x 2 bounds and the seed containing only the origin. -/
def sampleFlatNew : Flat.Automaton :=
  { rules := conwayRules,
    bounds := Flat.Vec2.mk 2 2,
    cells := [(Flat.Vec2.mk 0 0, 1), (Flat.Vec2.mk 0 1, 0),
              (Flat.Vec2.mk 1 0, 0), (Flat.Vec2.mk 1 1, 0)] }

/-- A deep rule set with face adjacency. -/
def vnRules : AutomataRules :=
  { to_survive := Rule.Single 1, to_be_born := Rule.Single 2,
    cell_states := 2, neighbor_method := Method.VonNeumann }

/-- The deep automaton produced by Automaton::new with vnRules,
1 x 1 x 2 bounds and the seed containing only the coordinate (0,0,1). -/
def sampleDeepNew : Deep.Automaton :=
  { rules := vnRules,
    bounds := Deep.Vec3.mk 1 1 2,
    cells := [(Deep.Vec3.mk 0 0 0, 0), (Deep.Vec3.mk 0 0 1, 1)] }

/-- A rule set with cell_states equal to 0, which nothing validates. -/
def zeroStateRules : AutomataRules :=
  { to_survive := Rule.Single 0, to_be_born := Rule.Single 1,
    cell_states := 0, neighbor_method := Method.VonNeumann }

/-- The flat automaton produced by Automaton::new with zeroStateRules on
a 1 x 1 grid seeded at the origin: the sole cell holds 255, the wrapped
value of the u8 subtraction 0 - 1. -/
def sampleFlatUnderflow : Flat.Automaton :=
  { rules := zeroStateRules,
    bounds := Flat.Vec2.mk 1 1,
    cells := [(Flat.Vec2.mk 0 0, 255)] }

section LookupLemmas

variable {κ : Type} [DecidableEq κ]

/-- Lookup after an entrywise value update: the value found is the
update of the value found before. -/
theorem lookup_map_entry (h : κ → Nat → Nat) (l : List (κ × Nat)) (v : κ) :
    lookup v (l.map fun p => (p.1, h p.1 p.2)) = (lookup v l).map (h v) := by
  induction l with
  | nil => rfl
  | cons p t ih =>
    by_cases hp : p.1 = v
    · subst hp
      simp [lookup]
    · simp [lookup, hp, ih]

/-- Lookup in a list of keyed values built from a key list. -/
theorem lookup_map_key (f : κ → Nat) (l : List κ) (v : κ) :
    lookup v (l.map fun k => (k, f k)) =
      if v ∈ l then some (f v) else none := by
  induction l with
  | nil => rfl
  | cons k t ih =>
    by_cases hk : k = v
    · subst hk
      simp [lookup]
    · simp only [List.map_cons, lookup, hk, if_false, ih, List.mem_cons]
      have : ¬ v = k := fun h => hk h.symm
      simp [this]

/-- Lookup succeeds exactly on the keys of the list. -/
theorem lookup_isSome_iff (l : List (κ × Nat)) (v : κ) :
    (lookup v l).isSome = true ↔ v ∈ l.map Prod.fst := by
  induction l with
  | nil => simp [lookup]
  | cons p t ih =>
    by_cases hp : p.1 = v
    · subst hp
      simp [lookup]
    · have : ¬ v = p.1 := fun h => hp h.symm
      simp [lookup, hp, ih, this]

/-- Over a list with no duplicate keys, lookup finds exactly the entries
of the list. -/
theorem lookup_eq_some_iff (l : List (κ × Nat)) (hnd : (l.map Prod.fst).Nodup)
    (v : κ) (s : Nat) : lookup v l = some s ↔ (v, s) ∈ l := by
  induction l with
  | nil => simp [lookup]
  | cons p t ih =>
    obtain ⟨k, w⟩ := p
    simp only [List.map_cons, List.nodup_cons] at hnd
    by_cases hp : k = v
    · subst hp
      simp only [lookup, List.mem_cons, Prod.mk.injEq, if_pos,
        Option.some.injEq]
      constructor
      · intro h
        exact Or.inl ⟨trivial, h.symm⟩
      · rintro (⟨-, h⟩ | h)
        · rw [h]
        · exact absurd (List.mem_map_of_mem Prod.fst h) hnd.1
    · have hne : ¬ ((v, s) = (k, w)) := by
        intro h
        cases h
        exact hp rfl
      simp [lookup, hp, ih hnd.2, hne]

/-- Lookup is invariant under permutation of a list with no duplicate
keys. -/
theorem lookup_perm (l₁ l₂ : List (κ × Nat)) (hp : l₁.Perm l₂)
    (hnd : (l₁.map Prod.fst).Nodup) (v : κ) : lookup v l₁ = lookup v l₂ := by
  have hnd₂ : (l₂.map Prod.fst).Nodup := ((hp.map Prod.fst).nodup_iff).mp hnd
  rcases h₂ : lookup v l₂ with _ | s
  · rcases h₁ : lookup v l₁ with _ | s₁
    · rfl
    · exfalso
      have hm : (v, s₁) ∈ l₂ := hp.mem_iff.mp ((lookup_eq_some_iff l₁ hnd v s₁).mp h₁)
      have := (lookup_eq_some_iff l₂ hnd₂ v s₁).mpr hm
      rw [h₂] at this
      cases this
  · exact (lookup_eq_some_iff l₁ hnd v s).mpr
      (hp.mem_iff.mpr ((lookup_eq_some_iff l₂ hnd₂ v s).mp h₂))

omit [DecidableEq κ] in
/-- A counting fold starting from an accumulator. -/
theorem foldl_count (p : κ → Bool) (l : List κ) (n : Nat) :
    l.foldl (fun count x => if p x then count + 1 else count) n =
      n + l.countP p := by
  induction l generalizing n with
  | nil => simp
  | cons x t ih =>
    by_cases hx : p x
    · simp [hx, ih, List.countP_cons]
      omega
    · simp [hx, ih, List.countP_cons]

omit [DecidableEq κ] in
/-- Counting over two duplicate-free lists whose matched elements agree. -/
theorem countP_eq_countP (l₁ l₂ : List κ) (p q : κ → Bool)
    (h₁ : l₁.Nodup) (h₂ : l₂.Nodup)
    (h : ∀ a, (a ∈ l₁ ∧ p a = true) ↔ (a ∈ l₂ ∧ q a = true)) :
    l₁.countP p = l₂.countP q := by
  rw [List.countP_eq_length_filter, List.countP_eq_length_filter]
  refine List.Perm.length_eq ?_
  rw [List.perm_ext_iff_of_nodup (h₁.filter p) (h₂.filter q)]
  intro a
  simp only [List.mem_filter]
  exact h a

end LookupLemmas

namespace Flat

theorem tick_rules (a : Automaton) : a.tick.rules = a.rules := rfl

theorem tick_bounds (a : Automaton) : a.tick.bounds = a.bounds := rfl

theorem tickN_rules (k : Nat) (a : Automaton) : (tickN k a).rules = a.rules := by
  induction k with
  | zero => rfl
  | succ k ih => rw [tickN, tick_rules, ih]

theorem tickN_bounds (k : Nat) (a : Automaton) : (tickN k a).bounds = a.bounds := by
  induction k with
  | zero => rfl
  | succ k ih => rw [tickN, tick_bounds, ih]

theorem tick_cells (a : Automaton) :
    a.tick.cells =
      a.cells.map fun p => (p.1, nextState a.rules (neighborCounts a) p.1 p.2) :=
  rfl

theorem lookup_tick (a : Automaton) (v : Vec2) :
    lookup v a.tick.cells =
      (lookup v a.cells).map (nextState a.rules (neighborCounts a) v) :=
  lookup_map_entry (nextState a.rules (neighborCounts a)) a.cells v

theorem lookup_neighborCounts (a : Automaton) (v : Vec2) :
    lookup v (neighborCounts a) =
      (lookup v a.cells).map
        (fun _ => countLive a.cells (possNeighbors v a.rules.neighbor_method)) :=
  lookup_map_entry
    (fun k _ => countLive a.cells (possNeighbors k a.rules.neighbor_method))
    a.cells v

theorem mem_boxList (b : Vec2) (v : Vec2) :
    v ∈ boxList b ↔ v.x < b.x ∧ v.y < b.y := by
  obtain ⟨vx, vy⟩ := v
  simp only [boxList, List.mem_flatMap, List.mem_map, List.mem_range,
    Vec2.mk.injEq]
  constructor
  · rintro ⟨x, hx, y, hy, rfl, rfl⟩
    exact ⟨hx, hy⟩
  · rintro ⟨hx, hy⟩
    exact ⟨vx, hx, vy, hy, rfl, rfl⟩

theorem nodup_boxList (b : Vec2) : (boxList b).Nodup := by
  rw [boxList, List.nodup_flatMap]
  constructor
  · intro x _
    refine List.Nodup.map ?_ (List.nodup_range b.y)
    intro y₁ y₂ h
    cases h
    rfl
  · refine (List.nodup_range b.x).imp ?_
    intro x₁ x₂ hne u hu₁ hu₂
    simp only [List.mem_map] at hu₁ hu₂
    obtain ⟨y₁, _, rfl⟩ := hu₁
    obtain ⟨y₂, _, h⟩ := hu₂
    cases h
    exact hne rfl

theorem length_boxList (b : Vec2) : (boxList b).length = b.x * b.y := by
  rw [boxList, List.length_flatMap]
  simp [Function.comp_def, List.length_map, List.length_range]

theorem initCells_eq (rules : AutomataRules) (bounds : Vec2)
    (start_cells : List Vec2) :
    initCells rules bounds start_cells =
      (boxList bounds).map fun v =>
        (v, if v ∈ start_cells then u8Sub rules.cell_states 1 else 0) := by
  simp [initCells, boxList, List.map_flatMap, List.map_map,
    Function.comp_def]

theorem new_ok_elim (rules : AutomataRules) (bounds : Vec2)
    (start_cells : List Vec2) (a : Automaton)
    (h : Automaton.new rules bounds start_cells = Except.ok a) :
    a = { rules := rules, bounds := bounds,
          cells := initCells rules bounds start_cells } := by
  unfold Automaton.new at h
  by_cases h₁ : ruleCheckFails rules.to_survive (maxNeighbors rules.neighbor_method)
  · simp [h₁] at h
  · by_cases h₂ : ruleCheckFails rules.to_be_born (maxNeighbors rules.neighbor_method)
    · simp [h₁, h₂] at h
    · simp [h₁, h₂] at h
      exact h.symm

theorem lookup_new (rules : AutomataRules) (bounds : Vec2)
    (start_cells : List Vec2) (a : Automaton)
    (h : Automaton.new rules bounds start_cells = Except.ok a) (v : Vec2) :
    lookup v a.cells =
      if v.x < bounds.x ∧ v.y < bounds.y then
        some (if v ∈ start_cells then u8Sub rules.cell_states 1 else 0)
      else none := by
  rw [new_ok_elim rules bounds start_cells a h]
  show lookup v (initCells rules bounds start_cells) = _
  rw [initCells_eq, lookup_map_key]
  simp only [mem_boxList]

end Flat

namespace Flat

theorem nextState_dead (rules : AutomataRules) (counts : List (Vec2 × Nat))
    (v : Vec2) (c : Nat) (hc : lookup v counts = some c) :
    nextState rules counts v 0 =
      if ruleMatches rules.to_be_born c then u8Sub rules.cell_states 1 else 0 := by
  cases hr : rules.to_be_born with
  | Single g => simp [nextState, ruleMatches, hr, hc]
  | Range lo hi =>
    simp only [nextState, ruleMatches, hr, hc, if_pos]
    by_cases h : lo ≤ c ∧ c < hi
    · rw [if_pos h, if_pos (by simpa using h)]
    · rw [if_neg h, if_neg (by simpa using h)]
  | Many gs => simp [nextState, ruleMatches, hr, hc]

theorem nextState_alive (rules : AutomataRules) (counts : List (Vec2 × Nat))
    (v : Vec2) (s c : Nat) (hs0 : s ≠ 0) (hsm : s = u8Sub rules.cell_states 1)
    (hc : lookup v counts = some c) :
    nextState rules counts v s =
      if ruleMatches rules.to_survive c then s else u8Sub s 1 := by
  cases hr : rules.to_survive with
  | Single g =>
    simp only [nextState, ruleMatches, hr, hc, if_neg hs0, if_pos hsm, beq_iff_eq]
    by_cases h : c = g
    · rw [if_neg (by simp [h]), if_pos (by simpa using h)]
    · rw [if_pos (by simpa using h), if_neg (by simpa using h)]
  | Range lo hi =>
    simp only [nextState, ruleMatches, hr, hc, if_neg hs0, if_pos hsm]
    by_cases h : lo ≤ c ∧ c < hi
    · rw [if_neg (by simpa using h), if_pos (by simpa using h)]
    · rw [if_pos h, if_neg (by simpa using h)]
  | Many gs =>
    simp only [nextState, ruleMatches, hr, hc, if_neg hs0, if_pos hsm]
    by_cases h : c ∈ gs
    · rw [if_neg (by simpa using h), if_pos (by simpa using h)]
    · rw [if_pos h, if_neg (by simpa using h)]

theorem nextState_decay (rules : AutomataRules) (counts : List (Vec2 × Nat))
    (v : Vec2) (s : Nat) (hs0 : s ≠ 0) (hsm : s ≠ u8Sub rules.cell_states 1) :
    nextState rules counts v s = u8Sub s 1 := by
  simp [nextState, hs0, hsm]

theorem countLive_eq_countP (cells : List (Vec2 × Nat)) (l : List Vec2) :
    countLive cells l = l.countP (liveAt cells) := by
  have hf : (fun (count : Nat) (pn : Vec2) =>
      match lookup pn cells with
      | some s => if 0 < s then count + 1 else count
      | none => count) =
      fun count pn => if liveAt cells pn then count + 1 else count := by
    funext count pn
    unfold liveAt
    cases lookup pn cells with
    | none => simp
    | some s =>
      by_cases hs : 0 < s <;> simp [hs]
  rw [countLive, hf, foldl_count, Nat.zero_add]

theorem countLive_zero (cells : List (Vec2 × Nat))
    (hz : ∀ v s, lookup v cells = some s → s = 0) (l : List Vec2) :
    countLive cells l = 0 := by
  rw [countLive_eq_countP, List.countP_eq_zero]
  intro u _
  unfold liveAt
  cases hu : lookup u cells with
  | none => simp
  | some s =>
    have := hz u s hu
    simp [this]

end Flat

namespace Deep

theorem tick_rules_d (a : Automaton) : a.tick.rules = a.rules := rfl

theorem tick_bounds_d (a : Automaton) : a.tick.bounds = a.bounds := rfl

theorem tickN_rules_d (k : Nat) (a : Automaton) : (tickN k a).rules = a.rules := by
  induction k with
  | zero => rfl
  | succ k ih => rw [tickN, tick_rules_d, ih]

theorem tickN_bounds_d (k : Nat) (a : Automaton) : (tickN k a).bounds = a.bounds := by
  induction k with
  | zero => rfl
  | succ k ih => rw [tickN, tick_bounds_d, ih]

theorem tick_cells_d (a : Automaton) :
    a.tick.cells =
      a.cells.map fun p => (p.1, nextState a.rules (neighborCounts a) p.1 p.2) :=
  rfl

theorem lookup_tick_d (a : Automaton) (v : Vec3) :
    lookup v a.tick.cells =
      (lookup v a.cells).map (nextState a.rules (neighborCounts a) v) :=
  lookup_map_entry (nextState a.rules (neighborCounts a)) a.cells v

theorem lookup_neighborCounts_d (a : Automaton) (v : Vec3) :
    lookup v (neighborCounts a) =
      (lookup v a.cells).map
        (fun _ => countLive a.cells (possNeighbors v a.rules.neighbor_method)) :=
  lookup_map_entry
    (fun k _ => countLive a.cells (possNeighbors k a.rules.neighbor_method))
    a.cells v

theorem mem_boxList_d (b : Vec3) (v : Vec3) :
    v ∈ boxList b ↔ v.x < b.x ∧ v.y < b.y ∧ v.z < b.z := by
  obtain ⟨vx, vy, vz⟩ := v
  simp only [boxList, List.mem_flatMap, List.mem_map, List.mem_range,
    Vec3.mk.injEq]
  constructor
  · rintro ⟨x, hx, y, hy, z, hz, rfl, rfl, rfl⟩
    exact ⟨hx, hy, hz⟩
  · rintro ⟨hx, hy, hz⟩
    exact ⟨vx, hx, vy, hy, vz, hz, rfl, rfl, rfl⟩

theorem nodup_boxList_d (b : Vec3) : (boxList b).Nodup := by
  rw [boxList, List.nodup_flatMap]
  constructor
  · intro x _
    rw [List.nodup_flatMap]
    constructor
    · intro y _
      refine List.Nodup.map ?_ (List.nodup_range b.z)
      intro z₁ z₂ h
      cases h
      rfl
    · refine (List.nodup_range b.y).imp ?_
      intro y₁ y₂ hne u hu₁ hu₂
      simp only [List.mem_map] at hu₁ hu₂
      obtain ⟨z₁, _, rfl⟩ := hu₁
      obtain ⟨z₂, _, h⟩ := hu₂
      cases h
      exact hne rfl
  · refine (List.nodup_range b.x).imp ?_
    intro x₁ x₂ hne u hu₁ hu₂
    simp only [List.mem_flatMap, List.mem_map] at hu₁ hu₂
    obtain ⟨y₁, _, z₁, _, rfl⟩ := hu₁
    obtain ⟨y₂, _, z₂, _, h⟩ := hu₂
    cases h
    exact hne rfl

theorem length_boxList_d (b : Vec3) : (boxList b).length = b.x * b.y * b.z := by
  rw [boxList]
  rw [List.length_flatMap]
  simp [Function.comp_def, List.length_flatMap, List.length_map,
    List.length_range, Nat.mul_assoc]

theorem initCells_eq_d (rules : AutomataRules) (bounds : Vec3)
    (start_cells : List Vec3) :
    initCells rules bounds start_cells =
      (boxList bounds).map fun v =>
        (v, if v ∈ start_cells then u8Sub rules.cell_states 1 else 0) := by
  simp [initCells, boxList, List.map_flatMap, List.map_map,
    Function.comp_def]

theorem new_ok_elim_d (rules : AutomataRules) (bounds : Vec3)
    (start_cells : List Vec3) (a : Automaton)
    (h : Automaton.new rules bounds start_cells = Except.ok a) :
    a = { rules := rules, bounds := bounds,
          cells := initCells rules bounds start_cells } := by
  unfold Automaton.new at h
  by_cases h₁ : ruleCheckFails rules.to_survive (maxNeighbors rules.neighbor_method)
  · simp [h₁] at h
  · by_cases h₂ : ruleCheckFails rules.to_be_born (maxNeighbors rules.neighbor_method)
    · simp [h₁, h₂] at h
    · simp [h₁, h₂] at h
      exact h.symm

theorem lookup_new_d (rules : AutomataRules) (bounds : Vec3)
    (start_cells : List Vec3) (a : Automaton)
    (h : Automaton.new rules bounds start_cells = Except.ok a) (v : Vec3) :
    lookup v a.cells =
      if v.x < bounds.x ∧ v.y < bounds.y ∧ v.z < bounds.z then
        some (if v ∈ start_cells then u8Sub rules.cell_states 1 else 0)
      else none := by
  rw [new_ok_elim_d rules bounds start_cells a h]
  show lookup v (initCells rules bounds start_cells) = _
  rw [initCells_eq_d, lookup_map_key]
  simp only [mem_boxList_d]

theorem nextState_dead_d (rules : AutomataRules) (counts : List (Vec3 × Nat))
    (v : Vec3) (c : Nat) (hc : lookup v counts = some c) :
    nextState rules counts v 0 =
      if ruleMatches rules.to_be_born c then u8Sub rules.cell_states 1 else 0 := by
  cases hr : rules.to_be_born with
  | Single g => simp [nextState, ruleMatches, hr, hc]
  | Range lo hi =>
    simp only [nextState, ruleMatches, hr, hc, if_pos]
    by_cases h : lo ≤ c ∧ c < hi
    · rw [if_pos h, if_pos (by simpa using h)]
    · rw [if_neg h, if_neg (by simpa using h)]
  | Many gs => simp [nextState, ruleMatches, hr, hc]

theorem nextState_alive_d (rules : AutomataRules) (counts : List (Vec3 × Nat))
    (v : Vec3) (s c : Nat) (hs0 : s ≠ 0) (hsm : s = u8Sub rules.cell_states 1)
    (hc : lookup v counts = some c) :
    nextState rules counts v s =
      if ruleMatches rules.to_survive c then s else u8Sub s 1 := by
  cases hr : rules.to_survive with
  | Single g =>
    simp only [nextState, ruleMatches, hr, hc, if_neg hs0, if_pos hsm, beq_iff_eq]
    by_cases h : c = g
    · rw [if_neg (by simp [h]), if_pos (by simpa using h)]
    · rw [if_pos (by simpa using h), if_neg (by simpa using h)]
  | Range lo hi =>
    simp only [nextState, ruleMatches, hr, hc, if_neg hs0, if_pos hsm]
    by_cases h : lo ≤ c ∧ c < hi
    · rw [if_neg (by simpa using h), if_pos (by simpa using h)]
    · rw [if_pos h, if_neg (by simpa using h)]
  | Many gs =>
    simp only [nextState, ruleMatches, hr, hc, if_neg hs0, if_pos hsm]
    by_cases h : c ∈ gs
    · rw [if_neg (by simpa using h), if_pos (by simpa using h)]
    · rw [if_pos h, if_neg (by simpa using h)]

theorem nextState_decay_d (rules : AutomataRules) (counts : List (Vec3 × Nat))
    (v : Vec3) (s : Nat) (hs0 : s ≠ 0) (hsm : s ≠ u8Sub rules.cell_states 1) :
    nextState rules counts v s = u8Sub s 1 := by
  simp [nextState, hs0, hsm]

theorem countLive_eq_countP_d (cells : List (Vec3 × Nat)) (l : List Vec3) :
    countLive cells l = l.countP (liveAt cells) := by
  have hf : (fun (count : Nat) (pn : Vec3) =>
      match lookup pn cells with
      | some s => if 0 < s then count + 1 else count
      | none => count) =
      fun count pn => if liveAt cells pn then count + 1 else count := by
    funext count pn
    unfold liveAt
    cases lookup pn cells with
    | none => simp
    | some s =>
      by_cases hs : 0 < s <;> simp [hs]
  rw [countLive, hf, foldl_count, Nat.zero_add]

theorem countLive_zero_d (cells : List (Vec3 × Nat))
    (hz : ∀ v s, lookup v cells = some s → s = 0) (l : List Vec3) :
    countLive cells l = 0 := by
  rw [countLive_eq_countP_d, List.countP_eq_zero]
  intro u _
  unfold liveAt
  cases hu : lookup u cells with
  | none => simp
  | some s =>
    have := hz u s hu
    simp [this]

end Deep

theorem u8Sub_lt (a b : Nat) : u8Sub a b < 256 := by
  unfold u8Sub u8Mod
  omega

theorem u8Sub_one (m : Nat) (h0 : 0 < m) (h : m < 256) : u8Sub m 1 = m - 1 := by
  unfold u8Sub u8Mod
  omega

theorem lookup_mem {κ : Type} [DecidableEq κ] {l : List (κ × Nat)} {v : κ}
    {s : Nat} (h : lookup v l = some s) : (v, s) ∈ l := by
  induction l with
  | nil => cases h
  | cons p t ih =>
    obtain ⟨k, w⟩ := p
    by_cases hp : k = v
    · subst hp
      simp only [lookup] at h
      rw [if_pos trivial] at h
      cases h
      exact List.mem_cons_self _ _
    · simp only [lookup, if_neg hp] at h
      exact List.mem_cons_of_mem _ (ih h)

theorem ruleCheckFails_iff (r : Rule) (mx : Nat) :
    ruleCheckFails r mx = true ↔ specRuleExceeds r mx := by
  cases r with
  | Single s => simp [ruleCheckFails, specRuleExceeds]
  | Range lo hi => simp [ruleCheckFails, specRuleExceeds]
  | Many m => simp [ruleCheckFails, specRuleExceeds, List.any_eq_true]

namespace Flat

theorem tick_keys (a : Automaton) :
    a.tick.cells.map Prod.fst = a.cells.map Prod.fst := by
  rw [tick_cells, List.map_map]
  rfl

theorem nextState_shape (rules : AutomataRules) (counts : List (Vec2 × Nat))
    (v : Vec2) (s : Nat) :
    nextState rules counts v s = 0 ∨ nextState rules counts v s = s ∨
    nextState rules counts v s = u8Sub rules.cell_states 1 ∨
    nextState rules counts v s = u8Sub s 1 := by
  unfold nextState
  repeat' split
  all_goals
    first
      | (left; rfl)
      | (right; left; rfl)
      | (right; right; left; rfl)
      | (right; right; right; rfl)

theorem nextState_lt_u8 (rules : AutomataRules) (counts : List (Vec2 × Nat))
    (v : Vec2) (s : Nat) (hs : s < 256) :
    nextState rules counts v s < 256 := by
  rcases nextState_shape rules counts v s with h | h | h | h <;> rw [h] <;>
    first
      | omega
      | exact hs
      | exact u8Sub_lt _ _

end Flat

namespace Deep

theorem tick_keys_d (a : Automaton) :
    a.tick.cells.map Prod.fst = a.cells.map Prod.fst := by
  rw [tick_cells_d, List.map_map]
  rfl

theorem nextState_shape_d (rules : AutomataRules) (counts : List (Vec3 × Nat))
    (v : Vec3) (s : Nat) :
    nextState rules counts v s = 0 ∨ nextState rules counts v s = s ∨
    nextState rules counts v s = u8Sub rules.cell_states 1 ∨
    nextState rules counts v s = u8Sub s 1 := by
  unfold nextState
  repeat' split
  all_goals
    first
      | (left; rfl)
      | (right; left; rfl)
      | (right; right; left; rfl)
      | (right; right; right; rfl)

theorem nextState_lt_u8_d (rules : AutomataRules) (counts : List (Vec3 × Nat))
    (v : Vec3) (s : Nat) (hs : s < 256) :
    nextState rules counts v s < 256 := by
  rcases nextState_shape_d rules counts v s with h | h | h | h <;> rw [h] <;>
    first
      | omega
      | exact hs
      | exact u8Sub_lt _ _

end Deep

/-- C1: for every automaton (2D or 3D), one tick replaces each
coordinate's state using only its pre-tick state s and its live-neighbor
count computed from the pre-tick cells: a dead cell (s = 0) becomes
cell_states - 1 exactly when the count matches to_be_born and stays 0
otherwise; an alive cell (s = cell_states - 1) stays alive exactly when
the count matches to_survive and otherwise becomes s - 1; the post-tick
state is a function of pre-tick data only. -/
theorem c1_tick_two_phase :
    (∀ (a : Flat.Automaton) (v : Flat.Vec2) (s : Nat),
      lookup v a.cells = some s →
      (s = 0 →
        lookup v a.tick.cells =
          some (if ruleMatches a.rules.to_be_born
                  (Flat.countLive a.cells
                    (Flat.possNeighbors v a.rules.neighbor_method))
                then u8Sub a.rules.cell_states 1 else 0)) ∧
      (s ≠ 0 → s = u8Sub a.rules.cell_states 1 →
        lookup v a.tick.cells =
          some (if ruleMatches a.rules.to_survive
                  (Flat.countLive a.cells
                    (Flat.possNeighbors v a.rules.neighbor_method))
                then s else u8Sub s 1))) ∧
    (∀ (a : Deep.Automaton) (v : Deep.Vec3) (s : Nat),
      lookup v a.cells = some s →
      (s = 0 →
        lookup v a.tick.cells =
          some (if ruleMatches a.rules.to_be_born
                  (Deep.countLive a.cells
                    (Deep.possNeighbors v a.rules.neighbor_method))
                then u8Sub a.rules.cell_states 1 else 0)) ∧
      (s ≠ 0 → s = u8Sub a.rules.cell_states 1 →
        lookup v a.tick.cells =
          some (if ruleMatches a.rules.to_survive
                  (Deep.countLive a.cells
                    (Deep.possNeighbors v a.rules.neighbor_method))
                then s else u8Sub s 1))) := by
  constructor
  · intro a v s hs
    have hc : lookup v (Flat.neighborCounts a) =
        some (Flat.countLive a.cells
          (Flat.possNeighbors v a.rules.neighbor_method)) := by
      rw [Flat.lookup_neighborCounts, hs, Option.map_some']
    constructor
    · intro h0
      subst h0
      rw [Flat.lookup_tick, hs, Option.map_some',
        Flat.nextState_dead a.rules _ v _ hc]
    · intro hs0 hsm
      rw [Flat.lookup_tick, hs, Option.map_some',
        Flat.nextState_alive a.rules _ v s _ hs0 hsm hc]
  · intro a v s hs
    have hc : lookup v (Deep.neighborCounts a) =
        some (Deep.countLive a.cells
          (Deep.possNeighbors v a.rules.neighbor_method)) := by
      rw [Deep.lookup_neighborCounts_d, hs, Option.map_some']
    constructor
    · intro h0
      subst h0
      rw [Deep.lookup_tick_d, hs, Option.map_some',
        Deep.nextState_dead_d a.rules _ v _ hc]
    · intro hs0 hsm
      rw [Deep.lookup_tick_d, hs, Option.map_some',
        Deep.nextState_alive_d a.rules _ v s _ hs0 hsm hc]

/-- C1 witness: concrete evaluations of the theorem on sampleFlat (a
dead cell) and sampleDeep (an alive cell). -/
theorem c1_tick_two_phase_witness :
    lookup (Flat.Vec2.mk 1 0) sampleFlat.tick.cells =
      some (if ruleMatches sampleFlat.rules.to_be_born
              (Flat.countLive sampleFlat.cells
                (Flat.possNeighbors (Flat.Vec2.mk 1 0)
                  sampleFlat.rules.neighbor_method))
            then u8Sub sampleFlat.rules.cell_states 1 else 0) ∧
    lookup (Deep.Vec3.mk 0 0 0) sampleDeep.tick.cells =
      some (if ruleMatches sampleDeep.rules.to_survive
              (Deep.countLive sampleDeep.cells
                (Deep.possNeighbors (Deep.Vec3.mk 0 0 0)
                  sampleDeep.rules.neighbor_method))
            then 1 else u8Sub 1 1) :=
  ⟨(c1_tick_two_phase.1 sampleFlat (Flat.Vec2.mk 1 0) 0 (by decide)).1 rfl,
   (c1_tick_two_phase.2 sampleDeep (Deep.Vec3.mk 0 0 0) 1 (by decide)).2
     (by decide) (by decide)⟩

theorem flat_new_error_iff (rules : AutomataRules) (bounds : Flat.Vec2)
    (seed : List Flat.Vec2) (e : Nat) :
    Flat.Automaton.new rules bounds seed = Except.error e ↔
      (e = Flat.maxNeighbors rules.neighbor_method ∧
        (specRuleExceeds rules.to_survive (Flat.maxNeighbors rules.neighbor_method) ∨
         specRuleExceeds rules.to_be_born (Flat.maxNeighbors rules.neighbor_method))) := by
  unfold Flat.Automaton.new
  by_cases h₁ : ruleCheckFails rules.to_survive (Flat.maxNeighbors rules.neighbor_method)
  · simp only [h₁, if_pos]
    constructor
    · intro h
      cases h
      exact ⟨rfl, Or.inl ((ruleCheckFails_iff _ _).mp h₁)⟩
    · rintro ⟨rfl, -⟩
      rfl
  · by_cases h₂ : ruleCheckFails rules.to_be_born (Flat.maxNeighbors rules.neighbor_method)
    · simp only [h₁, h₂, if_pos, if_neg, Bool.false_eq_true, not_false_iff]
      constructor
      · intro h
        cases h
        exact ⟨rfl, Or.inr ((ruleCheckFails_iff _ _).mp h₂)⟩
      · rintro ⟨rfl, -⟩
        rfl
    · simp only [h₁, h₂, if_neg, Bool.false_eq_true, not_false_iff]
      constructor
      · intro h
        cases h
      · rintro ⟨-, hex | hex⟩
        · exact absurd ((ruleCheckFails_iff _ _).mpr hex) h₁
        · exact absurd ((ruleCheckFails_iff _ _).mpr hex) h₂

theorem deep_new_error_iff (rules : AutomataRules) (bounds : Deep.Vec3)
    (seed : List Deep.Vec3) (e : Nat) :
    Deep.Automaton.new rules bounds seed = Except.error e ↔
      (e = Deep.maxNeighbors rules.neighbor_method ∧
        (specRuleExceeds rules.to_survive (Deep.maxNeighbors rules.neighbor_method) ∨
         specRuleExceeds rules.to_be_born (Deep.maxNeighbors rules.neighbor_method))) := by
  unfold Deep.Automaton.new
  by_cases h₁ : ruleCheckFails rules.to_survive (Deep.maxNeighbors rules.neighbor_method)
  · simp only [h₁, if_pos]
    constructor
    · intro h
      cases h
      exact ⟨rfl, Or.inl ((ruleCheckFails_iff _ _).mp h₁)⟩
    · rintro ⟨rfl, -⟩
      rfl
  · by_cases h₂ : ruleCheckFails rules.to_be_born (Deep.maxNeighbors rules.neighbor_method)
    · simp only [h₁, h₂, if_pos, if_neg, Bool.false_eq_true, not_false_iff]
      constructor
      · intro h
        cases h
        exact ⟨rfl, Or.inr ((ruleCheckFails_iff _ _).mp h₂)⟩
      · rintro ⟨rfl, -⟩
        rfl
    · simp only [h₁, h₂, if_neg, Bool.false_eq_true, not_false_iff]
      constructor
      · intro h
        cases h
      · rintro ⟨-, hex | hex⟩
        · exact absurd ((ruleCheckFails_iff _ _).mpr hex) h₁
        · exact absurd ((ruleCheckFails_iff _ _).mpr hex) h₂

/-- C3: Automaton::new returns the error carrying max_neighbors exactly
when to_survive or to_be_born references a value exceeding max_neighbors
(for Range both endpoints, for Many every element), where max_neighbors
is 8 (Moore) or 4 (VonNeumann) in 2D and 26 (Moore) or 6 (VonNeumann)
in 3D; the error carries nothing but max_neighbors, so no partial
automaton escapes on failure. -/
theorem c3_new_validation :
    (∀ (rules : AutomataRules) (bounds : Flat.Vec2) (seed : List Flat.Vec2)
       (e : Nat),
      Flat.Automaton.new rules bounds seed = Except.error e ↔
        (e = Flat.maxNeighbors rules.neighbor_method ∧
          (specRuleExceeds rules.to_survive (Flat.maxNeighbors rules.neighbor_method) ∨
           specRuleExceeds rules.to_be_born (Flat.maxNeighbors rules.neighbor_method)))) ∧
    (∀ (rules : AutomataRules) (bounds : Deep.Vec3) (seed : List Deep.Vec3)
       (e : Nat),
      Deep.Automaton.new rules bounds seed = Except.error e ↔
        (e = Deep.maxNeighbors rules.neighbor_method ∧
          (specRuleExceeds rules.to_survive (Deep.maxNeighbors rules.neighbor_method) ∨
           specRuleExceeds rules.to_be_born (Deep.maxNeighbors rules.neighbor_method)))) ∧
    Flat.maxNeighbors Method.Moore = 8 ∧ Flat.maxNeighbors Method.VonNeumann = 4 ∧
    Deep.maxNeighbors Method.Moore = 26 ∧ Deep.maxNeighbors Method.VonNeumann = 6 :=
  ⟨flat_new_error_iff, deep_new_error_iff, rfl, rfl, rfl, rfl⟩

theorem flat_new_keys (rules : AutomataRules) (bounds : Flat.Vec2)
    (seed : List Flat.Vec2) (a : Flat.Automaton)
    (h : Flat.Automaton.new rules bounds seed = Except.ok a) :
    a.cells.map Prod.fst = Flat.boxList bounds := by
  rw [Flat.new_ok_elim rules bounds seed a h]
  show (Flat.initCells rules bounds seed).map Prod.fst = _
  rw [Flat.initCells_eq, List.map_map]
  exact List.map_id _

theorem flat_tickN_keys (k : Nat) (a : Flat.Automaton) :
    (Flat.tickN k a).cells.map Prod.fst = a.cells.map Prod.fst := by
  induction k with
  | zero => rfl
  | succ k ih => rw [Flat.tickN, Flat.tick_keys, ih]

theorem deep_tickN_keys (k : Nat) (a : Deep.Automaton) :
    (Deep.tickN k a).cells.map Prod.fst = a.cells.map Prod.fst := by
  induction k with
  | zero => rfl
  | succ k ih => rw [Deep.tickN, Deep.tick_keys_d, ih]

/-- C5: for every successfully constructed flat automaton, immediately
after new and after every number of ticks, the key list of the cells map
is exactly the enumeration of the coordinates with each component below
the bounds, the map holds bounds.x * bounds.y entries, and membership in
the key set is equivalent to being in bounds; tick never adds or removes
a key. -/
theorem c5_density_invariant :
    ∀ (rules : AutomataRules) (bounds : Flat.Vec2) (seed : List Flat.Vec2)
      (a : Flat.Automaton),
      Flat.Automaton.new rules bounds seed = Except.ok a →
      ∀ k : Nat,
        (Flat.tickN k a).cells.map Prod.fst = Flat.boxList bounds ∧
        (Flat.tickN k a).cells.length = bounds.x * bounds.y ∧
        (∀ v : Flat.Vec2,
          v ∈ (Flat.tickN k a).cells.map Prod.fst ↔
            (v.x < bounds.x ∧ v.y < bounds.y)) := by
  intro rules bounds seed a h k
  have hkeys : (Flat.tickN k a).cells.map Prod.fst = Flat.boxList bounds := by
    rw [flat_tickN_keys, flat_new_keys rules bounds seed a h]
  refine ⟨hkeys, ?_, ?_⟩
  · have hlen : ((Flat.tickN k a).cells.map Prod.fst).length =
        (Flat.boxList bounds).length := by rw [hkeys]
    rw [List.length_map, Flat.length_boxList] at hlen
    exact hlen
  · intro v
    rw [hkeys]
    exact Flat.mem_boxList bounds v

/-- C5 witness: the density invariant evaluated on a concrete 2 x 2
Game of Life automaton after one tick. -/
theorem c5_density_invariant_witness :
    (Flat.tickN 1 sampleFlatNew).cells.map Prod.fst =
      Flat.boxList (Flat.Vec2.mk 2 2) ∧
    (Flat.tickN 1 sampleFlatNew).cells.length = 2 * 2 ∧
    (Flat.Vec2.mk 1 1 ∈ (Flat.tickN 1 sampleFlatNew).cells.map Prod.fst ↔
      ((Flat.Vec2.mk 1 1).x < 2 ∧ (Flat.Vec2.mk 1 1).y < 2)) :=
  have h := c5_density_invariant conwayRules (Flat.Vec2.mk 2 2)
    [Flat.Vec2.mk 0 0] sampleFlatNew (by rfl) 1
  ⟨h.1, h.2.1, h.2.2 (Flat.Vec2.mk 1 1)⟩

/-- C6: immediately after a successful new, every seed coordinate within
bounds holds cell_states - 1, every other in-bounds coordinate holds 0,
and out-of-bounds coordinates (in particular out-of-bounds seed entries)
are absent from the map. -/
theorem c6_seed_fidelity :
    (∀ (rules : AutomataRules) (bounds : Flat.Vec2) (seed : List Flat.Vec2)
       (a : Flat.Automaton),
      Flat.Automaton.new rules bounds seed = Except.ok a →
      (∀ v : Flat.Vec2, v.x < bounds.x → v.y < bounds.y →
        lookup v a.cells =
          some (if v ∈ seed then u8Sub rules.cell_states 1 else 0)) ∧
      (∀ v : Flat.Vec2, ¬ (v.x < bounds.x ∧ v.y < bounds.y) →
        lookup v a.cells = none)) ∧
    (∀ (rules : AutomataRules) (bounds : Deep.Vec3) (seed : List Deep.Vec3)
       (a : Deep.Automaton),
      Deep.Automaton.new rules bounds seed = Except.ok a →
      (∀ v : Deep.Vec3, v.x < bounds.x → v.y < bounds.y → v.z < bounds.z →
        lookup v a.cells =
          some (if v ∈ seed then u8Sub rules.cell_states 1 else 0)) ∧
      (∀ v : Deep.Vec3, ¬ (v.x < bounds.x ∧ v.y < bounds.y ∧ v.z < bounds.z) →
        lookup v a.cells = none)) := by
  constructor
  · intro rules bounds seed a h
    constructor
    · intro v hx hy
      rw [Flat.lookup_new rules bounds seed a h v, if_pos ⟨hx, hy⟩]
    · intro v hv
      rw [Flat.lookup_new rules bounds seed a h v, if_neg hv]
  · intro rules bounds seed a h
    constructor
    · intro v hx hy hz
      rw [Deep.lookup_new_d rules bounds seed a h v, if_pos ⟨hx, hy, hz⟩]
    · intro v hv
      rw [Deep.lookup_new_d rules bounds seed a h v, if_neg hv]

/-- C6 witness: seed fidelity evaluated on concrete 2D and 3D automata
built by new. -/
theorem c6_seed_fidelity_witness :
    lookup (Flat.Vec2.mk 0 0) sampleFlatNew.cells =
      some (if Flat.Vec2.mk 0 0 ∈ [Flat.Vec2.mk 0 0]
            then u8Sub conwayRules.cell_states 1 else 0) ∧
    lookup (Flat.Vec2.mk 2 0) sampleFlatNew.cells = none ∧
    lookup (Deep.Vec3.mk 0 0 1) sampleDeepNew.cells =
      some (if Deep.Vec3.mk 0 0 1 ∈ [Deep.Vec3.mk 0 0 1]
            then u8Sub vnRules.cell_states 1 else 0) ∧
    lookup (Deep.Vec3.mk 0 1 0) sampleDeepNew.cells = none :=
  have hf := c6_seed_fidelity.1 conwayRules (Flat.Vec2.mk 2 2)
    [Flat.Vec2.mk 0 0] sampleFlatNew (by rfl)
  have hd := c6_seed_fidelity.2 vnRules (Deep.Vec3.mk 1 1 2)
    [Deep.Vec3.mk 0 0 1] sampleDeepNew (by rfl)
  ⟨hf.1 (Flat.Vec2.mk 0 0) (by decide) (by decide),
   hf.2 (Flat.Vec2.mk 2 0) (by decide),
   hd.1 (Deep.Vec3.mk 0 0 1) (by decide) (by decide) (by decide),
   hd.2 (Deep.Vec3.mk 0 1 0) (by decide)⟩

theorem flat_decay_run (a : Flat.Automaton) (v : Flat.Vec2) (s : Nat)
    (hs : lookup v a.cells = some s) (h0 : 0 < s)
    (hm : s < u8Sub a.rules.cell_states 1) :
    ∀ k, k ≤ s → lookup v (Flat.tickN k a).cells = some (s - k) := by
  have hs256 : s < 256 := lt_trans hm (u8Sub_lt _ _)
  intro k
  induction k with
  | zero =>
    intro _
    simpa using hs
  | succ k ih =>
    intro hk1
    have hk : k ≤ s := Nat.le_of_succ_le hk1
    have hlk := ih hk
    show lookup v (Flat.tickN k a).tick.cells = _
    rw [Flat.lookup_tick, hlk, Option.map_some']
    have hr : (Flat.tickN k a).rules = a.rules := Flat.tickN_rules k a
    have hne0 : s - k ≠ 0 := by omega
    have hnem : s - k ≠ u8Sub (Flat.tickN k a).rules.cell_states 1 := by
      rw [hr]
      omega
    rw [Flat.nextState_decay _ _ _ _ hne0 hnem]
    have hval : u8Sub (s - k) 1 = s - (k + 1) := by
      rw [u8Sub_one (s - k) (by omega) (by omega)]
      omega
    rw [hval]

theorem deep_decay_run (a : Deep.Automaton) (v : Deep.Vec3) (s : Nat)
    (hs : lookup v a.cells = some s) (h0 : 0 < s)
    (hm : s < u8Sub a.rules.cell_states 1) :
    ∀ k, k ≤ s → lookup v (Deep.tickN k a).cells = some (s - k) := by
  have hs256 : s < 256 := lt_trans hm (u8Sub_lt _ _)
  intro k
  induction k with
  | zero =>
    intro _
    simpa using hs
  | succ k ih =>
    intro hk1
    have hk : k ≤ s := Nat.le_of_succ_le hk1
    have hlk := ih hk
    show lookup v (Deep.tickN k a).tick.cells = _
    rw [Deep.lookup_tick_d, hlk, Option.map_some']
    have hr : (Deep.tickN k a).rules = a.rules := Deep.tickN_rules_d k a
    have hne0 : s - k ≠ 0 := by omega
    have hnem : s - k ≠ u8Sub (Deep.tickN k a).rules.cell_states 1 := by
      rw [hr]
      omega
    rw [Deep.nextState_decay_d _ _ _ _ hne0 hnem]
    have hval : u8Sub (s - k) 1 = s - (k + 1) := by
      rw [u8Sub_one (s - k) (by omega) (by omega)]
      omega
    rw [hval]

/-- C7: a decaying cell, one with state strictly between 0 and
cell_states - 1, is decremented by one on every tick regardless of the
rules and of its neighbor count, and therefore reaches state s - k after
k ticks, down to 0 after s ticks. -/
theorem c7_decay_monotonic :
    (∀ (a : Flat.Automaton) (v : Flat.Vec2) (s : Nat),
      lookup v a.cells = some s → 0 < s →
      s < u8Sub a.rules.cell_states 1 →
      ∀ k, k ≤ s → lookup v (Flat.tickN k a).cells = some (s - k)) ∧
    (∀ (a : Deep.Automaton) (v : Deep.Vec3) (s : Nat),
      lookup v a.cells = some s → 0 < s →
      s < u8Sub a.rules.cell_states 1 →
      ∀ k, k ≤ s → lookup v (Deep.tickN k a).cells = some (s - k)) :=
  ⟨flat_decay_run, deep_decay_run⟩

/-- C7 witness: a cell at state 2 of 4 decays to 0 in two ticks in a
concrete flat and a concrete deep automaton. -/
theorem c7_decay_monotonic_witness :
    lookup (Flat.Vec2.mk 0 0) (Flat.tickN 2 sampleFlatDecay).cells =
      some (2 - 2) ∧
    lookup (Deep.Vec3.mk 0 0 0) (Deep.tickN 2 sampleDeepDecay).cells =
      some (2 - 2) :=
  ⟨c7_decay_monotonic.1 sampleFlatDecay (Flat.Vec2.mk 0 0) 2 (by decide)
     (by decide) (by decide) 2 (by decide),
   c7_decay_monotonic.2 sampleDeepDecay (Deep.Vec3.mk 0 0 0) 2 (by decide)
     (by decide) (by decide) 2 (by decide)⟩

theorem flat_zero_step (a : Flat.Automaton)
    (hz : ∀ v s, lookup v a.cells = some s → s = 0)
    (hb : ruleMatches a.rules.to_be_born 0 = false) (v : Flat.Vec2) :
    lookup v a.tick.cells = lookup v a.cells := by
  rw [Flat.lookup_tick]
  cases hc : lookup v a.cells with
  | none => rfl
  | some s₀ =>
    have h0 := hz v s₀ hc
    subst h0
    rw [Option.map_some']
    have hcn : lookup v (Flat.neighborCounts a) =
        some (Flat.countLive a.cells
          (Flat.possNeighbors v a.rules.neighbor_method)) := by
      rw [Flat.lookup_neighborCounts, hc, Option.map_some']
    rw [Flat.nextState_dead a.rules _ v _ hcn,
      Flat.countLive_zero a.cells hz, hb, if_neg]
    exact Bool.false_ne_true

theorem flat_zero_run (a : Flat.Automaton)
    (hz : ∀ v s, lookup v a.cells = some s → s = 0)
    (hb : ruleMatches a.rules.to_be_born 0 = false) (k : Nat) :
    ∀ v : Flat.Vec2, lookup v (Flat.tickN k a).cells = lookup v a.cells := by
  induction k with
  | zero =>
    intro v
    rfl
  | succ k ih =>
    have hzk : ∀ u s, lookup u (Flat.tickN k a).cells = some s → s = 0 := by
      intro u s hu
      rw [ih u] at hu
      exact hz u s hu
    have hbk : ruleMatches (Flat.tickN k a).rules.to_be_born 0 = false := by
      rw [Flat.tickN_rules]
      exact hb
    intro v
    show lookup v (Flat.tickN k a).tick.cells = _
    rw [flat_zero_step (Flat.tickN k a) hzk hbk v, ih v]

theorem deep_zero_step (a : Deep.Automaton)
    (hz : ∀ v s, lookup v a.cells = some s → s = 0)
    (hb : ruleMatches a.rules.to_be_born 0 = false) (v : Deep.Vec3) :
    lookup v a.tick.cells = lookup v a.cells := by
  rw [Deep.lookup_tick_d]
  cases hc : lookup v a.cells with
  | none => rfl
  | some s₀ =>
    have h0 := hz v s₀ hc
    subst h0
    rw [Option.map_some']
    have hcn : lookup v (Deep.neighborCounts a) =
        some (Deep.countLive a.cells
          (Deep.possNeighbors v a.rules.neighbor_method)) := by
      rw [Deep.lookup_neighborCounts_d, hc, Option.map_some']
    rw [Deep.nextState_dead_d a.rules _ v _ hcn,
      Deep.countLive_zero_d a.cells hz, hb, if_neg]
    exact Bool.false_ne_true

theorem deep_zero_run (a : Deep.Automaton)
    (hz : ∀ v s, lookup v a.cells = some s → s = 0)
    (hb : ruleMatches a.rules.to_be_born 0 = false) (k : Nat) :
    ∀ v : Deep.Vec3, lookup v (Deep.tickN k a).cells = lookup v a.cells := by
  induction k with
  | zero =>
    intro v
    rfl
  | succ k ih =>
    have hzk : ∀ u s, lookup u (Deep.tickN k a).cells = some s → s = 0 := by
      intro u s hu
      rw [ih u] at hu
      exact hz u s hu
    have hbk : ruleMatches (Deep.tickN k a).rules.to_be_born 0 = false := by
      rw [Deep.tickN_rules_d]
      exact hb
    intro v
    show lookup v (Deep.tickN k a).tick.cells = _
    rw [deep_zero_step (Deep.tickN k a) hzk hbk v, ih v]

/-- C8: an automaton whose cells are all dead, under a birth rule that
does not match the count 0, is unchanged by any number of ticks: every
lookup returns exactly what it returned before, so every cell stays 0. -/
theorem c8_empty_grid_stability :
    (∀ (a : Flat.Automaton),
      (∀ v s, lookup v a.cells = some s → s = 0) →
      ruleMatches a.rules.to_be_born 0 = false →
      ∀ (k : Nat) (v : Flat.Vec2),
        lookup v (Flat.tickN k a).cells = lookup v a.cells) ∧
    (∀ (a : Deep.Automaton),
      (∀ v s, lookup v a.cells = some s → s = 0) →
      ruleMatches a.rules.to_be_born 0 = false →
      ∀ (k : Nat) (v : Deep.Vec3),
        lookup v (Deep.tickN k a).cells = lookup v a.cells) :=
  ⟨flat_zero_run, deep_zero_run⟩

/-- C8 witness: two ticks leave a concrete all-dead flat automaton and a
concrete all-dead deep automaton unchanged. -/
theorem c8_empty_grid_stability_witness :
    lookup (Flat.Vec2.mk 1 0) (Flat.tickN 2 sampleFlatZero).cells =
      lookup (Flat.Vec2.mk 1 0) sampleFlatZero.cells ∧
    lookup (Deep.Vec3.mk 0 0 0) (Deep.tickN 2 sampleDeepZero).cells =
      lookup (Deep.Vec3.mk 0 0 0) sampleDeepZero.cells :=
  ⟨c8_empty_grid_stability.1 sampleFlatZero
     (fun v s h =>
       (by decide : ∀ p ∈ sampleFlatZero.cells, p.2 = 0) _ (lookup_mem h))
     (by decide) 2 (Flat.Vec2.mk 1 0),
   c8_empty_grid_stability.2 sampleDeepZero
     (fun v s h =>
       (by decide : ∀ p ∈ sampleDeepZero.cells, p.2 = 0) _ (lookup_mem h))
     (by decide) 2 (Deep.Vec3.mk 0 0 0)⟩

/-- C10: neither AutomataRules::new nor Automaton::new validates
cell_states: AutomataRules::new is a plain constructor accepting
cell_states = 0, Automaton::new succeeds with such rules and evaluates
the unchecked u8 subtraction cell_states - 1 (which wraps from 0 to 255)
for the seeded cell, and tick evaluates cell_states - 1 again on the
automaton holding that nonzero cell, keeping it at 255 under a survival
rule matching count 0; cell_states being at least 2 is an obligation no
code checks. -/
theorem c10_cell_states_unchecked :
    (∀ (ts tb : Rule) (cs : Nat) (m : Method),
      AutomataRules.new ts tb cs m =
        { to_survive := ts, to_be_born := tb, cell_states := cs,
          neighbor_method := m }) ∧
    Flat.Automaton.new zeroStateRules (Flat.Vec2.mk 1 1) [Flat.Vec2.mk 0 0] =
      Except.ok sampleFlatUnderflow ∧
    u8Sub zeroStateRules.cell_states 1 = 255 ∧
    lookup (Flat.Vec2.mk 0 0) sampleFlatUnderflow.cells = some 255 ∧
    lookup (Flat.Vec2.mk 0 0) sampleFlatUnderflow.tick.cells = some 255 :=
  ⟨fun ts tb cs m => rfl, by rfl, by decide, by decide, by decide⟩

theorem optionMap_const_congr {α β : Type} (o₁ o₂ : Option α) (c : β)
    (h : o₁.isSome = o₂.isSome) :
    o₁.map (fun _ => c) = o₂.map (fun _ => c) := by
  cases o₁ <;> cases o₂ <;> simp_all

theorem lookup_isSome_of_perm {κ : Type} [DecidableEq κ]
    (l₁ l₂ : List (κ × Nat)) (hp : l₁.Perm l₂) (v : κ) :
    (lookup v l₁).isSome = (lookup v l₂).isSome := by
  by_cases hv : v ∈ l₂.map Prod.fst
  · have hv₁ : v ∈ l₁.map Prod.fst := ((hp.map Prod.fst).mem_iff).mpr hv
    rw [(lookup_isSome_iff l₁ v).mpr hv₁, (lookup_isSome_iff l₂ v).mpr hv]
  · have hv₁ : ¬ v ∈ l₁.map Prod.fst := fun hm =>
      hv (((hp.map Prod.fst).mem_iff).mp hm)
    have e₁ : (lookup v l₁).isSome = false := by
      rcases h : (lookup v l₁).isSome with _ | _
      · rfl
      · exact absurd ((lookup_isSome_iff l₁ v).mp h) hv₁
    have e₂ : (lookup v l₂).isSome = false := by
      rcases h : (lookup v l₂).isSome with _ | _
      · rfl
      · exact absurd ((lookup_isSome_iff l₂ v).mp h) hv
    rw [e₁, e₂]

theorem flat_nextState_congr (rules : AutomataRules)
    (c₁ c₂ : List (Flat.Vec2 × Nat)) (v : Flat.Vec2) (s : Nat)
    (h : lookup v c₁ = lookup v c₂) :
    Flat.nextState rules c₁ v s = Flat.nextState rules c₂ v s := by
  unfold Flat.nextState
  rw [h]

theorem flat_par_counts_eq (a : Flat.Automaton) (o₁ : List (Flat.Vec2 × Nat))
    (h₁ : o₁.Perm a.cells) (v : Flat.Vec2) :
    lookup v (o₁.map fun p =>
      (p.1, Flat.countLive a.cells
        (Flat.possNeighbors p.1 a.rules.neighbor_method))) =
    lookup v (Flat.neighborCounts a) := by
  rw [lookup_map_entry
    (fun k _ => Flat.countLive a.cells (Flat.possNeighbors k a.rules.neighbor_method))
    o₁ v]
  rw [Flat.lookup_neighborCounts]
  exact optionMap_const_congr _ _ _ (lookup_isSome_of_perm o₁ a.cells h₁ v)

theorem flat_par_tick_eq (a : Flat.Automaton) (o₁ o₂ : List (Flat.Vec2 × Nat))
    (h₁ : o₁.Perm a.cells) (h₂ : o₂.Perm a.cells)
    (hnd : (a.cells.map Prod.fst).Nodup) :
    (∀ v, lookup v (a.par_tick o₁ o₂).cells = lookup v a.tick.cells) ∧
    (a.par_tick o₁ o₂).cells.Perm a.tick.cells := by
  have hnd₂ : (o₂.map Prod.fst).Nodup := ((h₂.map Prod.fst).nodup_iff).mpr hnd
  have hstep : ∀ p : Flat.Vec2 × Nat,
      (p.1, Flat.nextState a.rules
        (o₁.map fun q =>
          (q.1, Flat.countLive a.cells
            (Flat.possNeighbors q.1 a.rules.neighbor_method))) p.1 p.2) =
      (p.1, Flat.nextState a.rules (Flat.neighborCounts a) p.1 p.2) := by
    intro p
    rw [flat_nextState_congr a.rules _ _ p.1 p.2 (flat_par_counts_eq a o₁ h₁ p.1)]
  constructor
  · intro v
    show lookup v (o₂.map fun p =>
        (p.1, Flat.nextState a.rules
          (o₁.map fun q =>
            (q.1, Flat.countLive a.cells
              (Flat.possNeighbors q.1 a.rules.neighbor_method))) p.1 p.2)) = _
    rw [lookup_map_entry, Flat.lookup_tick,
      lookup_perm o₂ a.cells h₂ hnd₂ v]
    cases lookup v a.cells with
    | none => rfl
    | some s =>
      rw [Option.map_some', Option.map_some',
        flat_nextState_congr a.rules _ _ v s (flat_par_counts_eq a o₁ h₁ v)]
  · show (o₂.map fun p =>
        (p.1, Flat.nextState a.rules
          (o₁.map fun q =>
            (q.1, Flat.countLive a.cells
              (Flat.possNeighbors q.1 a.rules.neighbor_method))) p.1 p.2)).Perm
        a.tick.cells
    rw [List.map_congr_left (fun p _ => hstep p), Flat.tick_cells]
    exact h₂.map _

/-- C9: par_tick computes the same cell map as tick on every automaton
state whose map has no duplicate keys, for every enumeration order of
the entries in either phase: every lookup of the result agrees with
tick, and the resulting entry lists are permutations of each other, so
the two HashMaps are identical. -/
theorem c9_par_tick_equiv :
    ∀ (a : Flat.Automaton) (o₁ o₂ : List (Flat.Vec2 × Nat)),
      o₁.Perm a.cells → o₂.Perm a.cells →
      (a.cells.map Prod.fst).Nodup →
      (∀ v, lookup v (a.par_tick o₁ o₂).cells = lookup v a.tick.cells) ∧
      (a.par_tick o₁ o₂).cells.Perm a.tick.cells :=
  flat_par_tick_eq

/-- C9 witness: par_tick run with both phases enumerating the entries
in reversed order agrees with tick on a concrete automaton. -/
theorem c9_par_tick_equiv_witness :
    lookup (Flat.Vec2.mk 0 0)
        (sampleFlat.par_tick sampleFlat.cells.reverse
          sampleFlat.cells.reverse).cells =
      lookup (Flat.Vec2.mk 0 0) sampleFlat.tick.cells ∧
    (sampleFlat.par_tick sampleFlat.cells.reverse
        sampleFlat.cells.reverse).cells.Perm sampleFlat.tick.cells :=
  have h := c9_par_tick_equiv sampleFlat sampleFlat.cells.reverse
    sampleFlat.cells.reverse (by decide) (by decide) (by decide)
  ⟨h.1 (Flat.Vec2.mk 0 0), h.2⟩

theorem flat_tick_values_lt (a : Flat.Automaton)
    (hv : ∀ v s, lookup v a.cells = some s → s < 256) :
    ∀ v s, lookup v a.tick.cells = some s → s < 256 := by
  intro v s h
  rw [Flat.lookup_tick] at h
  cases hc : lookup v a.cells with
  | none => rw [hc] at h; cases h
  | some s₀ =>
    rw [hc, Option.map_some'] at h
    cases h
    exact Flat.nextState_lt_u8 a.rules _ v s₀ (hv v s₀ hc)

theorem flat_tickN_values_lt (a : Flat.Automaton)
    (hv : ∀ v s, lookup v a.cells = some s → s < 256) (k : Nat) :
    ∀ v s, lookup v (Flat.tickN k a).cells = some s → s < 256 := by
  induction k with
  | zero => exact hv
  | succ k ih => exact flat_tick_values_lt (Flat.tickN k a) ih

theorem deep_tick_values_lt (a : Deep.Automaton)
    (hv : ∀ v s, lookup v a.cells = some s → s < 256) :
    ∀ v s, lookup v a.tick.cells = some s → s < 256 := by
  intro v s h
  rw [Deep.lookup_tick_d] at h
  cases hc : lookup v a.cells with
  | none => rw [hc] at h; cases h
  | some s₀ =>
    rw [hc, Option.map_some'] at h
    cases h
    exact Deep.nextState_lt_u8_d a.rules _ v s₀ (hv v s₀ hc)

theorem deep_tickN_values_lt (a : Deep.Automaton)
    (hv : ∀ v s, lookup v a.cells = some s → s < 256) (k : Nat) :
    ∀ v s, lookup v (Deep.tickN k a).cells = some s → s < 256 := by
  induction k with
  | zero => exact hv
  | succ k ih => exact deep_tick_values_lt (Deep.tickN k a) ih

theorem deep_new_keys (rules : AutomataRules) (bounds : Deep.Vec3)
    (seed : List Deep.Vec3) (a : Deep.Automaton)
    (h : Deep.Automaton.new rules bounds seed = Except.ok a) :
    a.cells.map Prod.fst = Deep.boxList bounds := by
  rw [Deep.new_ok_elim_d rules bounds seed a h]
  show (Deep.initCells rules bounds seed).map Prod.fst = _
  rw [Deep.initCells_eq_d, List.map_map]
  exact List.map_id _

theorem flat_new_values_lt (rules : AutomataRules) (bounds : Flat.Vec2)
    (seed : List Flat.Vec2) (a : Flat.Automaton)
    (h : Flat.Automaton.new rules bounds seed = Except.ok a) :
    ∀ v s, lookup v a.cells = some s → s < 256 := by
  intro v s hl
  rw [Flat.lookup_new rules bounds seed a h v] at hl
  by_cases hb : v.x < bounds.x ∧ v.y < bounds.y
  · rw [if_pos hb] at hl
    cases hl
    by_cases hm : v ∈ seed
    · rw [if_pos hm]
      exact u8Sub_lt _ _
    · rw [if_neg hm]
      omega
  · rw [if_neg hb] at hl
    cases hl

theorem deep_new_values_lt (rules : AutomataRules) (bounds : Deep.Vec3)
    (seed : List Deep.Vec3) (a : Deep.Automaton)
    (h : Deep.Automaton.new rules bounds seed = Except.ok a) :
    ∀ v s, lookup v a.cells = some s → s < 256 := by
  intro v s hl
  rw [Deep.lookup_new_d rules bounds seed a h v] at hl
  by_cases hb : v.x < bounds.x ∧ v.y < bounds.y ∧ v.z < bounds.z
  · rw [if_pos hb] at hl
    cases hl
    by_cases hm : v ∈ seed
    · rw [if_pos hm]
      exact u8Sub_lt _ _
    · rw [if_neg hm]
      omega
  · rw [if_neg hb] at hl
    cases hl

/-- C4: for every automaton returned by new, tick and get_cells are
total over every reachable state: after any number of ticks, get_cells
still yields an entry for every in-bounds coordinate, including
coordinates with a component equal to 0, and every entry is a valid u8
value; nothing is ever undefined.  Arithmetic is modelled with the
wrapping (release-profile) semantics of Rust integer overflow. -/
theorem c4_totality :
    (∀ (rules : AutomataRules) (bounds : Flat.Vec2) (seed : List Flat.Vec2)
       (a : Flat.Automaton),
      Flat.Automaton.new rules bounds seed = Except.ok a →
      ∀ (k : Nat) (v : Flat.Vec2), v.x < bounds.x → v.y < bounds.y →
        ∃ s, lookup v (Flat.tickN k a).get_cells = some s ∧ s < 256) ∧
    (∀ (rules : AutomataRules) (bounds : Deep.Vec3) (seed : List Deep.Vec3)
       (a : Deep.Automaton),
      Deep.Automaton.new rules bounds seed = Except.ok a →
      ∀ (k : Nat) (v : Deep.Vec3), v.x < bounds.x → v.y < bounds.y →
        v.z < bounds.z →
        ∃ s, lookup v (Deep.tickN k a).get_cells = some s ∧ s < 256) := by
  constructor
  · intro rules bounds seed a h k v hx hy
    have hkey : v ∈ (Flat.tickN k a).cells.map Prod.fst := by
      rw [flat_tickN_keys, flat_new_keys rules bounds seed a h]
      exact (Flat.mem_boxList bounds v).mpr ⟨hx, hy⟩
    have hsome := (lookup_isSome_iff (Flat.tickN k a).cells v).mpr hkey
    cases hl : lookup v (Flat.tickN k a).cells with
    | none => rw [hl] at hsome; cases hsome
    | some s =>
      exact ⟨s, hl,
        flat_tickN_values_lt a (flat_new_values_lt rules bounds seed a h) k v s hl⟩
  · intro rules bounds seed a h k v hx hy hz
    have hkey : v ∈ (Deep.tickN k a).cells.map Prod.fst := by
      rw [deep_tickN_keys, deep_new_keys rules bounds seed a h]
      exact (Deep.mem_boxList_d bounds v).mpr ⟨hx, hy, hz⟩
    have hsome := (lookup_isSome_iff (Deep.tickN k a).cells v).mpr hkey
    cases hl : lookup v (Deep.tickN k a).cells with
    | none => rw [hl] at hsome; cases hsome
    | some s =>
      exact ⟨s, hl,
        deep_tickN_values_lt a (deep_new_values_lt rules bounds seed a h) k v s hl⟩

/-- C4 witness: concrete totality instances at the origin (a coordinate
with both components 0) after one tick. -/
theorem c4_totality_witness :
    (∃ s, lookup (Flat.Vec2.mk 0 0) (Flat.tickN 1 sampleFlatNew).get_cells =
        some s ∧ s < 256) ∧
    (∃ s, lookup (Deep.Vec3.mk 0 0 0) (Deep.tickN 1 sampleDeepNew).get_cells =
        some s ∧ s < 256) :=
  ⟨c4_totality.1 conwayRules (Flat.Vec2.mk 2 2) [Flat.Vec2.mk 0 0]
     sampleFlatNew (by rfl) 1 (Flat.Vec2.mk 0 0) (by decide) (by decide),
   c4_totality.2 vnRules (Deep.Vec3.mk 1 1 2) [Deep.Vec3.mk 0 0 1]
     sampleDeepNew (by rfl) 1 (Deep.Vec3.mk 0 0 0) (by decide) (by decide)
     (by decide)⟩

theorem usizeSub_one (x : Nat) (h : x < usizeMod) :
    usizeSub x 1 = if x = 0 then usizeMod - 1 else x - 1 := by
  unfold usizeSub usizeMod at *
  split <;> omega

theorem usizeSub_one_zero : usizeSub 0 1 = usizeMod - 1 := by
  unfold usizeSub usizeMod
  omega

theorem usizeSub_one_pos (x : Nat) (h0 : 0 < x) (h : x < usizeMod) :
    usizeSub x 1 = x - 1 := by
  unfold usizeSub usizeMod at *
  omega

theorem usizeAdd_one (x : Nat) (h : x + 1 < usizeMod) : usizeAdd x 1 = x + 1 := by
  unfold usizeAdd usizeMod at *
  omega

theorem usizeMod_lit : usizeMod = 18446744073709551616 := rfl

set_option maxRecDepth 4000

theorem flat_nodup_poss_moore (vx vy : Nat)
    (hvx : vx + 1 < usizeMod) (hvy : vy + 1 < usizeMod) :
    (Flat.possNeighbors (Flat.Vec2.mk vx vy) Method.Moore).Nodup := by
  rcases Nat.eq_zero_or_pos vx with hx0 | hx0
  · rcases Nat.eq_zero_or_pos vy with hy0 | hy0
    · subst hx0
      subst hy0
      simp only [Flat.possNeighbors, List.cons_append, List.nil_append, List.append_nil, List.nodup_cons, List.mem_cons, List.not_mem_nil, or_false, not_or, Flat.Vec2.mk.injEq, List.nodup_nil, and_true, true_and, usizeMod_lit, usizeSub_one_zero, usizeAdd_one 0 hvx, usizeSub_one_zero, usizeAdd_one 0 hvy]
      repeat' constructor
      all_goals first | omega | trivial | exact not_false
    · subst hx0
      simp only [Flat.possNeighbors, List.cons_append, List.nil_append, List.append_nil, List.nodup_cons, List.mem_cons, List.not_mem_nil, or_false, not_or, Flat.Vec2.mk.injEq, List.nodup_nil, and_true, true_and, usizeMod_lit, usizeSub_one_zero, usizeAdd_one 0 hvx, usizeSub_one_pos vy hy0 (Nat.lt_of_succ_lt hvy), usizeAdd_one vy hvy]
      repeat' constructor
      all_goals first | omega | trivial | exact not_false
  · rcases Nat.eq_zero_or_pos vy with hy0 | hy0
    · subst hy0
      simp only [Flat.possNeighbors, List.cons_append, List.nil_append, List.append_nil, List.nodup_cons, List.mem_cons, List.not_mem_nil, or_false, not_or, Flat.Vec2.mk.injEq, List.nodup_nil, and_true, true_and, usizeMod_lit, usizeSub_one_pos vx hx0 (Nat.lt_of_succ_lt hvx), usizeAdd_one vx hvx, usizeSub_one_zero, usizeAdd_one 0 hvy]
      repeat' constructor
      all_goals first | omega | trivial | exact not_false
    · simp only [Flat.possNeighbors, List.cons_append, List.nil_append, List.append_nil, List.nodup_cons, List.mem_cons, List.not_mem_nil, or_false, not_or, Flat.Vec2.mk.injEq, List.nodup_nil, and_true, true_and, usizeMod_lit, usizeSub_one_pos vx hx0 (Nat.lt_of_succ_lt hvx), usizeAdd_one vx hvx, usizeSub_one_pos vy hy0 (Nat.lt_of_succ_lt hvy), usizeAdd_one vy hvy]
      repeat' constructor
      all_goals first | omega | trivial | exact not_false

theorem flat_nodup_poss_vn (vx vy : Nat)
    (hvx : vx + 1 < usizeMod) (hvy : vy + 1 < usizeMod) :
    (Flat.possNeighbors (Flat.Vec2.mk vx vy) Method.VonNeumann).Nodup := by
  rcases Nat.eq_zero_or_pos vx with hx0 | hx0
  · rcases Nat.eq_zero_or_pos vy with hy0 | hy0
    · subst hx0
      subst hy0
      simp only [Flat.possNeighbors, List.cons_append, List.nil_append, List.append_nil, List.nodup_cons, List.mem_cons, List.not_mem_nil, or_false, not_or, Flat.Vec2.mk.injEq, List.nodup_nil, and_true, true_and, usizeMod_lit, usizeSub_one_zero, usizeAdd_one 0 hvx, usizeSub_one_zero, usizeAdd_one 0 hvy]
      repeat' constructor
      all_goals first | omega | trivial | exact not_false
    · subst hx0
      simp only [Flat.possNeighbors, List.cons_append, List.nil_append, List.append_nil, List.nodup_cons, List.mem_cons, List.not_mem_nil, or_false, not_or, Flat.Vec2.mk.injEq, List.nodup_nil, and_true, true_and, usizeMod_lit, usizeSub_one_zero, usizeAdd_one 0 hvx, usizeSub_one_pos vy hy0 (Nat.lt_of_succ_lt hvy), usizeAdd_one vy hvy]
      repeat' constructor
      all_goals first | omega | trivial | exact not_false
  · rcases Nat.eq_zero_or_pos vy with hy0 | hy0
    · subst hy0
      simp only [Flat.possNeighbors, List.cons_append, List.nil_append, List.append_nil, List.nodup_cons, List.mem_cons, List.not_mem_nil, or_false, not_or, Flat.Vec2.mk.injEq, List.nodup_nil, and_true, true_and, usizeMod_lit, usizeSub_one_pos vx hx0 (Nat.lt_of_succ_lt hvx), usizeAdd_one vx hvx, usizeSub_one_zero, usizeAdd_one 0 hvy]
      repeat' constructor
      all_goals first | omega | trivial | exact not_false
    · simp only [Flat.possNeighbors, List.cons_append, List.nil_append, List.append_nil, List.nodup_cons, List.mem_cons, List.not_mem_nil, or_false, not_or, Flat.Vec2.mk.injEq, List.nodup_nil, and_true, true_and, usizeMod_lit, usizeSub_one_pos vx hx0 (Nat.lt_of_succ_lt hvx), usizeAdd_one vx hvx, usizeSub_one_pos vy hy0 (Nat.lt_of_succ_lt hvy), usizeAdd_one vy hvy]
      repeat' constructor
      all_goals first | omega | trivial | exact not_false

theorem flat_mem_poss_moore_fwd (vx vy ux uy : Nat)
    (hvx : vx + 1 < usizeMod) (hvy : vy + 1 < usizeMod)
    (hux : ux + 1 < usizeMod) (huy : uy + 1 < usizeMod)
    (h : Flat.Vec2.mk ux uy ∈ Flat.possNeighbors (Flat.Vec2.mk vx vy) Method.Moore) :
    Flat.specAdjacent Method.Moore (Flat.Vec2.mk vx vy) (Flat.Vec2.mk ux uy) := by
  have es1 := usizeSub_one vx (Nat.lt_of_succ_lt hvx)
  have es2 := usizeSub_one vy (Nat.lt_of_succ_lt hvy)
  have ea1 := usizeAdd_one vx hvx
  have ea2 := usizeAdd_one vy hvy
  rw [usizeMod_lit] at hvx hvy hux huy es1 es2
  simp only [Flat.specAdjacent]
  simp only [Flat.possNeighbors, List.cons_append, List.nil_append,
    List.append_nil, List.mem_cons, List.not_mem_nil, or_false,
    Flat.Vec2.mk.injEq] at h
  rcases h with hc | h
  · obtain ⟨hx, hy⟩ := hc
    rw [hx] at hux ⊢
    rw [hy] at huy ⊢
    simp only [es1, es2, ea1, ea2, or_true, true_or, and_true, true_and] at hux huy ⊢
    try split_ifs at hux huy ⊢
    all_goals first | omega | trivial | exact not_false
  rcases h with hc | h
  · obtain ⟨hx, hy⟩ := hc
    rw [hx] at hux ⊢
    rw [hy] at huy ⊢
    simp only [es1, es2, ea1, ea2, or_true, true_or, and_true, true_and] at hux huy ⊢
    try split_ifs at hux huy ⊢
    all_goals first | omega | trivial | exact not_false
  rcases h with hc | h
  · obtain ⟨hx, hy⟩ := hc
    rw [hx] at hux ⊢
    rw [hy] at huy ⊢
    simp only [es1, es2, ea1, ea2, or_true, true_or, and_true, true_and] at hux huy ⊢
    try split_ifs at hux huy ⊢
    all_goals first | omega | trivial | exact not_false
  rcases h with hc | h
  · obtain ⟨hx, hy⟩ := hc
    rw [hx] at hux ⊢
    rw [hy] at huy ⊢
    simp only [es1, es2, ea1, ea2, or_true, true_or, and_true, true_and] at hux huy ⊢
    try split_ifs at hux huy ⊢
    all_goals first | omega | trivial | exact not_false
  rcases h with hc | h
  · obtain ⟨hx, hy⟩ := hc
    rw [hx] at hux ⊢
    rw [hy] at huy ⊢
    simp only [es1, es2, ea1, ea2, or_true, true_or, and_true, true_and] at hux huy ⊢
    try split_ifs at hux huy ⊢
    all_goals first | omega | trivial | exact not_false
  rcases h with hc | h
  · obtain ⟨hx, hy⟩ := hc
    rw [hx] at hux ⊢
    rw [hy] at huy ⊢
    simp only [es1, es2, ea1, ea2, or_true, true_or, and_true, true_and] at hux huy ⊢
    try split_ifs at hux huy ⊢
    all_goals first | omega | trivial | exact not_false
  rcases h with hc | h
  · obtain ⟨hx, hy⟩ := hc
    rw [hx] at hux ⊢
    rw [hy] at huy ⊢
    simp only [es1, es2, ea1, ea2, or_true, true_or, and_true, true_and] at hux huy ⊢
    try split_ifs at hux huy ⊢
    all_goals first | omega | trivial | exact not_false
  obtain ⟨hx, hy⟩ := h
  rw [hx] at hux ⊢
  rw [hy] at huy ⊢
  simp only [es1, es2, ea1, ea2, or_true, true_or, and_true, true_and] at hux huy ⊢
  try split_ifs at hux huy ⊢
  all_goals first | omega | trivial | exact not_false

theorem flat_mem_poss_vn_fwd (vx vy ux uy : Nat)
    (hvx : vx + 1 < usizeMod) (hvy : vy + 1 < usizeMod)
    (hux : ux + 1 < usizeMod) (huy : uy + 1 < usizeMod)
    (h : Flat.Vec2.mk ux uy ∈ Flat.possNeighbors (Flat.Vec2.mk vx vy) Method.VonNeumann) :
    Flat.specAdjacent Method.VonNeumann (Flat.Vec2.mk vx vy) (Flat.Vec2.mk ux uy) := by
  have es1 := usizeSub_one vx (Nat.lt_of_succ_lt hvx)
  have es2 := usizeSub_one vy (Nat.lt_of_succ_lt hvy)
  have ea1 := usizeAdd_one vx hvx
  have ea2 := usizeAdd_one vy hvy
  rw [usizeMod_lit] at hvx hvy hux huy es1 es2
  simp only [Flat.specAdjacent]
  simp only [Flat.possNeighbors, List.cons_append, List.nil_append,
    List.append_nil, List.mem_cons, List.not_mem_nil, or_false,
    Flat.Vec2.mk.injEq] at h
  rcases h with hc | h
  · obtain ⟨hx, hy⟩ := hc
    rw [hx] at hux ⊢
    rw [hy] at huy ⊢
    simp only [es1, es2, ea1, ea2, or_true, true_or, and_true, true_and] at hux huy ⊢
    try split_ifs at hux huy ⊢
    all_goals first | omega | trivial | exact not_false
  rcases h with hc | h
  · obtain ⟨hx, hy⟩ := hc
    rw [hx] at hux ⊢
    rw [hy] at huy ⊢
    simp only [es1, es2, ea1, ea2, or_true, true_or, and_true, true_and] at hux huy ⊢
    try split_ifs at hux huy ⊢
    all_goals first | omega | trivial | exact not_false
  rcases h with hc | h
  · obtain ⟨hx, hy⟩ := hc
    rw [hx] at hux ⊢
    rw [hy] at huy ⊢
    simp only [es1, es2, ea1, ea2, or_true, true_or, and_true, true_and] at hux huy ⊢
    try split_ifs at hux huy ⊢
    all_goals first | omega | trivial | exact not_false
  obtain ⟨hx, hy⟩ := h
  rw [hx] at hux ⊢
  rw [hy] at huy ⊢
  simp only [es1, es2, ea1, ea2, or_true, true_or, and_true, true_and] at hux huy ⊢
  try split_ifs at hux huy ⊢
  all_goals first | omega | trivial | exact not_false

theorem flat_mem_poss_moore_bwd (vx vy ux uy : Nat)
    (hvx : vx + 1 < usizeMod) (hvy : vy + 1 < usizeMod)
    (hux : ux + 1 < usizeMod) (huy : uy + 1 < usizeMod)
    (h : Flat.specAdjacent Method.Moore (Flat.Vec2.mk vx vy) (Flat.Vec2.mk ux uy)) :
    Flat.Vec2.mk ux uy ∈ Flat.possNeighbors (Flat.Vec2.mk vx vy) Method.Moore := by
  have es1 := usizeSub_one vx (Nat.lt_of_succ_lt hvx)
  have es2 := usizeSub_one vy (Nat.lt_of_succ_lt hvy)
  have ea1 := usizeAdd_one vx hvx
  have ea2 := usizeAdd_one vy hvy
  rw [usizeMod_lit] at hvx hvy hux huy es1 es2
  simp only [Flat.specAdjacent, Flat.Vec2.mk.injEq] at h
  obtain ⟨hx, hy, hne⟩ := h
  rcases hx with hx | hx | hx
  · rcases hy with hy | hy | hy
    · exact absurd ⟨hx, hy⟩ hne
    · subst hx
      obtain rfl : usizeSub vy 1 = uy := by rw [es2]; split <;> omega
      simp [Flat.possNeighbors, List.mem_cons]
    · subst hx
      obtain rfl : usizeAdd vy 1 = uy := by rw [ea2]; omega
      simp [Flat.possNeighbors, List.mem_cons]
  · rcases hy with hy | hy | hy
    · obtain rfl : usizeSub vx 1 = ux := by rw [es1]; split <;> omega
      subst hy
      simp [Flat.possNeighbors, List.mem_cons]
    · obtain rfl : usizeSub vx 1 = ux := by rw [es1]; split <;> omega
      obtain rfl : usizeSub vy 1 = uy := by rw [es2]; split <;> omega
      simp [Flat.possNeighbors, List.mem_cons]
    · obtain rfl : usizeSub vx 1 = ux := by rw [es1]; split <;> omega
      obtain rfl : usizeAdd vy 1 = uy := by rw [ea2]; omega
      simp [Flat.possNeighbors, List.mem_cons]
  · rcases hy with hy | hy | hy
    · obtain rfl : usizeAdd vx 1 = ux := by rw [ea1]; omega
      subst hy
      simp [Flat.possNeighbors, List.mem_cons]
    · obtain rfl : usizeAdd vx 1 = ux := by rw [ea1]; omega
      obtain rfl : usizeSub vy 1 = uy := by rw [es2]; split <;> omega
      simp [Flat.possNeighbors, List.mem_cons]
    · obtain rfl : usizeAdd vx 1 = ux := by rw [ea1]; omega
      obtain rfl : usizeAdd vy 1 = uy := by rw [ea2]; omega
      simp [Flat.possNeighbors, List.mem_cons]

theorem flat_mem_poss_vn_bwd (vx vy ux uy : Nat)
    (hvx : vx + 1 < usizeMod) (hvy : vy + 1 < usizeMod)
    (hux : ux + 1 < usizeMod) (huy : uy + 1 < usizeMod)
    (h : Flat.specAdjacent Method.VonNeumann (Flat.Vec2.mk vx vy) (Flat.Vec2.mk ux uy)) :
    Flat.Vec2.mk ux uy ∈ Flat.possNeighbors (Flat.Vec2.mk vx vy) Method.VonNeumann := by
  have es1 := usizeSub_one vx (Nat.lt_of_succ_lt hvx)
  have es2 := usizeSub_one vy (Nat.lt_of_succ_lt hvy)
  have ea1 := usizeAdd_one vx hvx
  have ea2 := usizeAdd_one vy hvy
  rw [usizeMod_lit] at hvx hvy hux huy es1 es2
  simp only [Flat.specAdjacent, Flat.Vec2.mk.injEq] at h
  rcases h with ⟨hx, hy⟩ | ⟨hx, hy⟩
  · rcases hx with hx | hx
    · obtain rfl : usizeSub vx 1 = ux := by rw [es1]; split <;> omega
      subst hy
      simp [Flat.possNeighbors, List.mem_cons]
    · obtain rfl : usizeAdd vx 1 = ux := by rw [ea1]; omega
      subst hy
      simp [Flat.possNeighbors, List.mem_cons]
  · rcases hy with hy | hy
    · subst hx
      obtain rfl : usizeSub vy 1 = uy := by rw [es2]; split <;> omega
      simp [Flat.possNeighbors, List.mem_cons]
    · subst hx
      obtain rfl : usizeAdd vy 1 = uy := by rw [ea2]; omega
      simp [Flat.possNeighbors, List.mem_cons]

theorem flat_mem_possNeighbors (m : Method) (v u : Flat.Vec2)
    (hvx : v.x + 1 < usizeMod) (hvy : v.y + 1 < usizeMod)
    (hux : u.x + 1 < usizeMod) (huy : u.y + 1 < usizeMod) :
    u ∈ Flat.possNeighbors v m ↔ Flat.specAdjacent m v u := by
  obtain ⟨vx, vy⟩ := v
  obtain ⟨ux, uy⟩ := u
  simp only [] at hvx hvy hux huy
  cases m with
  | Moore => exact ⟨fun h => flat_mem_poss_moore_fwd vx vy ux uy hvx hvy hux huy h,
      fun h => flat_mem_poss_moore_bwd vx vy ux uy hvx hvy hux huy h⟩
  | VonNeumann => exact ⟨fun h => flat_mem_poss_vn_fwd vx vy ux uy hvx hvy hux huy h,
      fun h => flat_mem_poss_vn_bwd vx vy ux uy hvx hvy hux huy h⟩

theorem flat_nodup_possNeighbors (m : Method) (v : Flat.Vec2)
    (hvx : v.x + 1 < usizeMod) (hvy : v.y + 1 < usizeMod) :
    (Flat.possNeighbors v m).Nodup := by
  obtain ⟨vx, vy⟩ := v
  simp only [] at hvx hvy
  cases m with
  | Moore => exact flat_nodup_poss_moore vx vy hvx hvy
  | VonNeumann => exact flat_nodup_poss_vn vx vy hvx hvy

theorem deep_nodup_poss_moore (vx vy vz : Nat)
    (hvx : vx + 1 < usizeMod) (hvy : vy + 1 < usizeMod) (hvz : vz + 1 < usizeMod) :
    (Deep.possNeighbors (Deep.Vec3.mk vx vy vz) Method.Moore).Nodup := by
  rcases Nat.eq_zero_or_pos vx with hx0 | hx0
  · rcases Nat.eq_zero_or_pos vy with hy0 | hy0
    · rcases Nat.eq_zero_or_pos vz with hz0 | hz0
      · subst hx0
        subst hy0
        subst hz0
        simp only [Deep.possNeighbors, List.cons_append, List.nil_append, List.append_nil, List.nodup_cons, List.mem_cons, List.not_mem_nil, or_false, not_or, Deep.Vec3.mk.injEq, List.nodup_nil, and_true, true_and, usizeMod_lit, usizeSub_one_zero, usizeAdd_one 0 hvx, usizeSub_one_zero, usizeAdd_one 0 hvy, usizeSub_one_zero, usizeAdd_one 0 hvz]
        repeat' constructor
        all_goals first | omega | trivial | exact not_false
      · subst hx0
        subst hy0
        simp only [Deep.possNeighbors, List.cons_append, List.nil_append, List.append_nil, List.nodup_cons, List.mem_cons, List.not_mem_nil, or_false, not_or, Deep.Vec3.mk.injEq, List.nodup_nil, and_true, true_and, usizeMod_lit, usizeSub_one_zero, usizeAdd_one 0 hvx, usizeSub_one_zero, usizeAdd_one 0 hvy, usizeSub_one_pos vz hz0 (Nat.lt_of_succ_lt hvz), usizeAdd_one vz hvz]
        repeat' constructor
        all_goals first | omega | trivial | exact not_false
    · rcases Nat.eq_zero_or_pos vz with hz0 | hz0
      · subst hx0
        subst hz0
        simp only [Deep.possNeighbors, List.cons_append, List.nil_append, List.append_nil, List.nodup_cons, List.mem_cons, List.not_mem_nil, or_false, not_or, Deep.Vec3.mk.injEq, List.nodup_nil, and_true, true_and, usizeMod_lit, usizeSub_one_zero, usizeAdd_one 0 hvx, usizeSub_one_pos vy hy0 (Nat.lt_of_succ_lt hvy), usizeAdd_one vy hvy, usizeSub_one_zero, usizeAdd_one 0 hvz]
        repeat' constructor
        all_goals first | omega | trivial | exact not_false
      · subst hx0
        simp only [Deep.possNeighbors, List.cons_append, List.nil_append, List.append_nil, List.nodup_cons, List.mem_cons, List.not_mem_nil, or_false, not_or, Deep.Vec3.mk.injEq, List.nodup_nil, and_true, true_and, usizeMod_lit, usizeSub_one_zero, usizeAdd_one 0 hvx, usizeSub_one_pos vy hy0 (Nat.lt_of_succ_lt hvy), usizeAdd_one vy hvy, usizeSub_one_pos vz hz0 (Nat.lt_of_succ_lt hvz), usizeAdd_one vz hvz]
        repeat' constructor
        all_goals first | omega | trivial | exact not_false
  · rcases Nat.eq_zero_or_pos vy with hy0 | hy0
    · rcases Nat.eq_zero_or_pos vz with hz0 | hz0
      · subst hy0
        subst hz0
        simp only [Deep.possNeighbors, List.cons_append, List.nil_append, List.append_nil, List.nodup_cons, List.mem_cons, List.not_mem_nil, or_false, not_or, Deep.Vec3.mk.injEq, List.nodup_nil, and_true, true_and, usizeMod_lit, usizeSub_one_pos vx hx0 (Nat.lt_of_succ_lt hvx), usizeAdd_one vx hvx, usizeSub_one_zero, usizeAdd_one 0 hvy, usizeSub_one_zero, usizeAdd_one 0 hvz]
        repeat' constructor
        all_goals first | omega | trivial | exact not_false
      · subst hy0
        simp only [Deep.possNeighbors, List.cons_append, List.nil_append, List.append_nil, List.nodup_cons, List.mem_cons, List.not_mem_nil, or_false, not_or, Deep.Vec3.mk.injEq, List.nodup_nil, and_true, true_and, usizeMod_lit, usizeSub_one_pos vx hx0 (Nat.lt_of_succ_lt hvx), usizeAdd_one vx hvx, usizeSub_one_zero, usizeAdd_one 0 hvy, usizeSub_one_pos vz hz0 (Nat.lt_of_succ_lt hvz), usizeAdd_one vz hvz]
        repeat' constructor
        all_goals first | omega | trivial | exact not_false
    · rcases Nat.eq_zero_or_pos vz with hz0 | hz0
      · subst hz0
        simp only [Deep.possNeighbors, List.cons_append, List.nil_append, List.append_nil, List.nodup_cons, List.mem_cons, List.not_mem_nil, or_false, not_or, Deep.Vec3.mk.injEq, List.nodup_nil, and_true, true_and, usizeMod_lit, usizeSub_one_pos vx hx0 (Nat.lt_of_succ_lt hvx), usizeAdd_one vx hvx, usizeSub_one_pos vy hy0 (Nat.lt_of_succ_lt hvy), usizeAdd_one vy hvy, usizeSub_one_zero, usizeAdd_one 0 hvz]
        repeat' constructor
        all_goals first | omega | trivial | exact not_false
      · simp only [Deep.possNeighbors, List.cons_append, List.nil_append, List.append_nil, List.nodup_cons, List.mem_cons, List.not_mem_nil, or_false, not_or, Deep.Vec3.mk.injEq, List.nodup_nil, and_true, true_and, usizeMod_lit, usizeSub_one_pos vx hx0 (Nat.lt_of_succ_lt hvx), usizeAdd_one vx hvx, usizeSub_one_pos vy hy0 (Nat.lt_of_succ_lt hvy), usizeAdd_one vy hvy, usizeSub_one_pos vz hz0 (Nat.lt_of_succ_lt hvz), usizeAdd_one vz hvz]
        repeat' constructor
        all_goals first | omega | trivial | exact not_false

theorem deep_nodup_poss_vn (vx vy vz : Nat)
    (hvx : vx + 1 < usizeMod) (hvy : vy + 1 < usizeMod) (hvz : vz + 1 < usizeMod) :
    (Deep.possNeighbors (Deep.Vec3.mk vx vy vz) Method.VonNeumann).Nodup := by
  rcases Nat.eq_zero_or_pos vx with hx0 | hx0
  · rcases Nat.eq_zero_or_pos vy with hy0 | hy0
    · rcases Nat.eq_zero_or_pos vz with hz0 | hz0
      · subst hx0
        subst hy0
        subst hz0
        simp only [Deep.possNeighbors, List.cons_append, List.nil_append, List.append_nil, List.nodup_cons, List.mem_cons, List.not_mem_nil, or_false, not_or, Deep.Vec3.mk.injEq, List.nodup_nil, and_true, true_and, usizeMod_lit, usizeSub_one_zero, usizeAdd_one 0 hvx, usizeSub_one_zero, usizeAdd_one 0 hvy, usizeSub_one_zero, usizeAdd_one 0 hvz]
        repeat' constructor
        all_goals first | omega | trivial | exact not_false
      · subst hx0
        subst hy0
        simp only [Deep.possNeighbors, List.cons_append, List.nil_append, List.append_nil, List.nodup_cons, List.mem_cons, List.not_mem_nil, or_false, not_or, Deep.Vec3.mk.injEq, List.nodup_nil, and_true, true_and, usizeMod_lit, usizeSub_one_zero, usizeAdd_one 0 hvx, usizeSub_one_zero, usizeAdd_one 0 hvy, usizeSub_one_pos vz hz0 (Nat.lt_of_succ_lt hvz), usizeAdd_one vz hvz]
        repeat' constructor
        all_goals first | omega | trivial | exact not_false
    · rcases Nat.eq_zero_or_pos vz with hz0 | hz0
      · subst hx0
        subst hz0
        simp only [Deep.possNeighbors, List.cons_append, List.nil_append, List.append_nil, List.nodup_cons, List.mem_cons, List.not_mem_nil, or_false, not_or, Deep.Vec3.mk.injEq, List.nodup_nil, and_true, true_and, usizeMod_lit, usizeSub_one_zero, usizeAdd_one 0 hvx, usizeSub_one_pos vy hy0 (Nat.lt_of_succ_lt hvy), usizeAdd_one vy hvy, usizeSub_one_zero, usizeAdd_one 0 hvz]
        repeat' constructor
        all_goals first | omega | trivial | exact not_false
      · subst hx0
        simp only [Deep.possNeighbors, List.cons_append, List.nil_append, List.append_nil, List.nodup_cons, List.mem_cons, List.not_mem_nil, or_false, not_or, Deep.Vec3.mk.injEq, List.nodup_nil, and_true, true_and, usizeMod_lit, usizeSub_one_zero, usizeAdd_one 0 hvx, usizeSub_one_pos vy hy0 (Nat.lt_of_succ_lt hvy), usizeAdd_one vy hvy, usizeSub_one_pos vz hz0 (Nat.lt_of_succ_lt hvz), usizeAdd_one vz hvz]
        repeat' constructor
        all_goals first | omega | trivial | exact not_false
  · rcases Nat.eq_zero_or_pos vy with hy0 | hy0
    · rcases Nat.eq_zero_or_pos vz with hz0 | hz0
      · subst hy0
        subst hz0
        simp only [Deep.possNeighbors, List.cons_append, List.nil_append, List.append_nil, List.nodup_cons, List.mem_cons, List.not_mem_nil, or_false, not_or, Deep.Vec3.mk.injEq, List.nodup_nil, and_true, true_and, usizeMod_lit, usizeSub_one_pos vx hx0 (Nat.lt_of_succ_lt hvx), usizeAdd_one vx hvx, usizeSub_one_zero, usizeAdd_one 0 hvy, usizeSub_one_zero, usizeAdd_one 0 hvz]
        repeat' constructor
        all_goals first | omega | trivial | exact not_false
      · subst hy0
        simp only [Deep.possNeighbors, List.cons_append, List.nil_append, List.append_nil, List.nodup_cons, List.mem_cons, List.not_mem_nil, or_false, not_or, Deep.Vec3.mk.injEq, List.nodup_nil, and_true, true_and, usizeMod_lit, usizeSub_one_pos vx hx0 (Nat.lt_of_succ_lt hvx), usizeAdd_one vx hvx, usizeSub_one_zero, usizeAdd_one 0 hvy, usizeSub_one_pos vz hz0 (Nat.lt_of_succ_lt hvz), usizeAdd_one vz hvz]
        repeat' constructor
        all_goals first | omega | trivial | exact not_false
    · rcases Nat.eq_zero_or_pos vz with hz0 | hz0
      · subst hz0
        simp only [Deep.possNeighbors, List.cons_append, List.nil_append, List.append_nil, List.nodup_cons, List.mem_cons, List.not_mem_nil, or_false, not_or, Deep.Vec3.mk.injEq, List.nodup_nil, and_true, true_and, usizeMod_lit, usizeSub_one_pos vx hx0 (Nat.lt_of_succ_lt hvx), usizeAdd_one vx hvx, usizeSub_one_pos vy hy0 (Nat.lt_of_succ_lt hvy), usizeAdd_one vy hvy, usizeSub_one_zero, usizeAdd_one 0 hvz]
        repeat' constructor
        all_goals first | omega | trivial | exact not_false
      · simp only [Deep.possNeighbors, List.cons_append, List.nil_append, List.append_nil, List.nodup_cons, List.mem_cons, List.not_mem_nil, or_false, not_or, Deep.Vec3.mk.injEq, List.nodup_nil, and_true, true_and, usizeMod_lit, usizeSub_one_pos vx hx0 (Nat.lt_of_succ_lt hvx), usizeAdd_one vx hvx, usizeSub_one_pos vy hy0 (Nat.lt_of_succ_lt hvy), usizeAdd_one vy hvy, usizeSub_one_pos vz hz0 (Nat.lt_of_succ_lt hvz), usizeAdd_one vz hvz]
        repeat' constructor
        all_goals first | omega | trivial | exact not_false

theorem deep_mem_poss_moore_fwd (vx vy vz ux uy uz : Nat)
    (hvx : vx + 1 < usizeMod) (hvy : vy + 1 < usizeMod) (hvz : vz + 1 < usizeMod)
    (hux : ux + 1 < usizeMod) (huy : uy + 1 < usizeMod) (huz : uz + 1 < usizeMod)
    (h : Deep.Vec3.mk ux uy uz ∈ Deep.possNeighbors (Deep.Vec3.mk vx vy vz) Method.Moore) :
    Deep.specAdjacent Method.Moore (Deep.Vec3.mk vx vy vz) (Deep.Vec3.mk ux uy uz) := by
  have es1 := usizeSub_one vx (Nat.lt_of_succ_lt hvx)
  have es2 := usizeSub_one vy (Nat.lt_of_succ_lt hvy)
  have es3 := usizeSub_one vz (Nat.lt_of_succ_lt hvz)
  have ea1 := usizeAdd_one vx hvx
  have ea2 := usizeAdd_one vy hvy
  have ea3 := usizeAdd_one vz hvz
  rw [usizeMod_lit] at hvx hvy hvz hux huy huz es1 es2 es3
  simp only [Deep.specAdjacent]
  simp only [Deep.possNeighbors, List.cons_append, List.nil_append,
    List.append_nil, List.mem_cons, List.not_mem_nil, or_false,
    Deep.Vec3.mk.injEq] at h
  rcases h with hc | h
  · obtain ⟨hx, hy, hz⟩ := hc
    rw [hx] at hux ⊢
    rw [hy] at huy ⊢
    rw [hz] at huz ⊢
    simp only [es1, es2, es3, ea1, ea2, ea3, or_true, true_or, and_true, true_and] at hux huy huz ⊢
    try split_ifs at hux huy huz ⊢
    all_goals first | omega | trivial | exact not_false
  rcases h with hc | h
  · obtain ⟨hx, hy, hz⟩ := hc
    rw [hx] at hux ⊢
    rw [hy] at huy ⊢
    rw [hz] at huz ⊢
    simp only [es1, es2, es3, ea1, ea2, ea3, or_true, true_or, and_true, true_and] at hux huy huz ⊢
    try split_ifs at hux huy huz ⊢
    all_goals first | omega | trivial | exact not_false
  rcases h with hc | h
  · obtain ⟨hx, hy, hz⟩ := hc
    rw [hx] at hux ⊢
    rw [hy] at huy ⊢
    rw [hz] at huz ⊢
    simp only [es1, es2, es3, ea1, ea2, ea3, or_true, true_or, and_true, true_and] at hux huy huz ⊢
    try split_ifs at hux huy huz ⊢
    all_goals first | omega | trivial | exact not_false
  rcases h with hc | h
  · obtain ⟨hx, hy, hz⟩ := hc
    rw [hx] at hux ⊢
    rw [hy] at huy ⊢
    rw [hz] at huz ⊢
    simp only [es1, es2, es3, ea1, ea2, ea3, or_true, true_or, and_true, true_and] at hux huy huz ⊢
    try split_ifs at hux huy huz ⊢
    all_goals first | omega | trivial | exact not_false
  rcases h with hc | h
  · obtain ⟨hx, hy, hz⟩ := hc
    rw [hx] at hux ⊢
    rw [hy] at huy ⊢
    rw [hz] at huz ⊢
    simp only [es1, es2, es3, ea1, ea2, ea3, or_true, true_or, and_true, true_and] at hux huy huz ⊢
    try split_ifs at hux huy huz ⊢
    all_goals first | omega | trivial | exact not_false
  rcases h with hc | h
  · obtain ⟨hx, hy, hz⟩ := hc
    rw [hx] at hux ⊢
    rw [hy] at huy ⊢
    rw [hz] at huz ⊢
    simp only [es1, es2, es3, ea1, ea2, ea3, or_true, true_or, and_true, true_and] at hux huy huz ⊢
    try split_ifs at hux huy huz ⊢
    all_goals first | omega | trivial | exact not_false
  rcases h with hc | h
  · obtain ⟨hx, hy, hz⟩ := hc
    rw [hx] at hux ⊢
    rw [hy] at huy ⊢
    rw [hz] at huz ⊢
    simp only [es1, es2, es3, ea1, ea2, ea3, or_true, true_or, and_true, true_and] at hux huy huz ⊢
    try split_ifs at hux huy huz ⊢
    all_goals first | omega | trivial | exact not_false
  rcases h with hc | h
  · obtain ⟨hx, hy, hz⟩ := hc
    rw [hx] at hux ⊢
    rw [hy] at huy ⊢
    rw [hz] at huz ⊢
    simp only [es1, es2, es3, ea1, ea2, ea3, or_true, true_or, and_true, true_and] at hux huy huz ⊢
    try split_ifs at hux huy huz ⊢
    all_goals first | omega | trivial | exact not_false
  rcases h with hc | h
  · obtain ⟨hx, hy, hz⟩ := hc
    rw [hx] at hux ⊢
    rw [hy] at huy ⊢
    rw [hz] at huz ⊢
    simp only [es1, es2, es3, ea1, ea2, ea3, or_true, true_or, and_true, true_and] at hux huy huz ⊢
    try split_ifs at hux huy huz ⊢
    all_goals first | omega | trivial | exact not_false
  rcases h with hc | h
  · obtain ⟨hx, hy, hz⟩ := hc
    rw [hx] at hux ⊢
    rw [hy] at huy ⊢
    rw [hz] at huz ⊢
    simp only [es1, es2, es3, ea1, ea2, ea3, or_true, true_or, and_true, true_and] at hux huy huz ⊢
    try split_ifs at hux huy huz ⊢
    all_goals first | omega | trivial | exact not_false
  rcases h with hc | h
  · obtain ⟨hx, hy, hz⟩ := hc
    rw [hx] at hux ⊢
    rw [hy] at huy ⊢
    rw [hz] at huz ⊢
    simp only [es1, es2, es3, ea1, ea2, ea3, or_true, true_or, and_true, true_and] at hux huy huz ⊢
    try split_ifs at hux huy huz ⊢
    all_goals first | omega | trivial | exact not_false
  rcases h with hc | h
  · obtain ⟨hx, hy, hz⟩ := hc
    rw [hx] at hux ⊢
    rw [hy] at huy ⊢
    rw [hz] at huz ⊢
    simp only [es1, es2, es3, ea1, ea2, ea3, or_true, true_or, and_true, true_and] at hux huy huz ⊢
    try split_ifs at hux huy huz ⊢
    all_goals first | omega | trivial | exact not_false
  rcases h with hc | h
  · obtain ⟨hx, hy, hz⟩ := hc
    rw [hx] at hux ⊢
    rw [hy] at huy ⊢
    rw [hz] at huz ⊢
    simp only [es1, es2, es3, ea1, ea2, ea3, or_true, true_or, and_true, true_and] at hux huy huz ⊢
    try split_ifs at hux huy huz ⊢
    all_goals first | omega | trivial | exact not_false
  rcases h with hc | h
  · obtain ⟨hx, hy, hz⟩ := hc
    rw [hx] at hux ⊢
    rw [hy] at huy ⊢
    rw [hz] at huz ⊢
    simp only [es1, es2, es3, ea1, ea2, ea3, or_true, true_or, and_true, true_and] at hux huy huz ⊢
    try split_ifs at hux huy huz ⊢
    all_goals first | omega | trivial | exact not_false
  rcases h with hc | h
  · obtain ⟨hx, hy, hz⟩ := hc
    rw [hx] at hux ⊢
    rw [hy] at huy ⊢
    rw [hz] at huz ⊢
    simp only [es1, es2, es3, ea1, ea2, ea3, or_true, true_or, and_true, true_and] at hux huy huz ⊢
    try split_ifs at hux huy huz ⊢
    all_goals first | omega | trivial | exact not_false
  rcases h with hc | h
  · obtain ⟨hx, hy, hz⟩ := hc
    rw [hx] at hux ⊢
    rw [hy] at huy ⊢
    rw [hz] at huz ⊢
    simp only [es1, es2, es3, ea1, ea2, ea3, or_true, true_or, and_true, true_and] at hux huy huz ⊢
    try split_ifs at hux huy huz ⊢
    all_goals first | omega | trivial | exact not_false
  rcases h with hc | h
  · obtain ⟨hx, hy, hz⟩ := hc
    rw [hx] at hux ⊢
    rw [hy] at huy ⊢
    rw [hz] at huz ⊢
    simp only [es1, es2, es3, ea1, ea2, ea3, or_true, true_or, and_true, true_and] at hux huy huz ⊢
    try split_ifs at hux huy huz ⊢
    all_goals first | omega | trivial | exact not_false
  rcases h with hc | h
  · obtain ⟨hx, hy, hz⟩ := hc
    rw [hx] at hux ⊢
    rw [hy] at huy ⊢
    rw [hz] at huz ⊢
    simp only [es1, es2, es3, ea1, ea2, ea3, or_true, true_or, and_true, true_and] at hux huy huz ⊢
    try split_ifs at hux huy huz ⊢
    all_goals first | omega | trivial | exact not_false
  rcases h with hc | h
  · obtain ⟨hx, hy, hz⟩ := hc
    rw [hx] at hux ⊢
    rw [hy] at huy ⊢
    rw [hz] at huz ⊢
    simp only [es1, es2, es3, ea1, ea2, ea3, or_true, true_or, and_true, true_and] at hux huy huz ⊢
    try split_ifs at hux huy huz ⊢
    all_goals first | omega | trivial | exact not_false
  rcases h with hc | h
  · obtain ⟨hx, hy, hz⟩ := hc
    rw [hx] at hux ⊢
    rw [hy] at huy ⊢
    rw [hz] at huz ⊢
    simp only [es1, es2, es3, ea1, ea2, ea3, or_true, true_or, and_true, true_and] at hux huy huz ⊢
    try split_ifs at hux huy huz ⊢
    all_goals first | omega | trivial | exact not_false
  rcases h with hc | h
  · obtain ⟨hx, hy, hz⟩ := hc
    rw [hx] at hux ⊢
    rw [hy] at huy ⊢
    rw [hz] at huz ⊢
    simp only [es1, es2, es3, ea1, ea2, ea3, or_true, true_or, and_true, true_and] at hux huy huz ⊢
    try split_ifs at hux huy huz ⊢
    all_goals first | omega | trivial | exact not_false
  rcases h with hc | h
  · obtain ⟨hx, hy, hz⟩ := hc
    rw [hx] at hux ⊢
    rw [hy] at huy ⊢
    rw [hz] at huz ⊢
    simp only [es1, es2, es3, ea1, ea2, ea3, or_true, true_or, and_true, true_and] at hux huy huz ⊢
    try split_ifs at hux huy huz ⊢
    all_goals first | omega | trivial | exact not_false
  rcases h with hc | h
  · obtain ⟨hx, hy, hz⟩ := hc
    rw [hx] at hux ⊢
    rw [hy] at huy ⊢
    rw [hz] at huz ⊢
    simp only [es1, es2, es3, ea1, ea2, ea3, or_true, true_or, and_true, true_and] at hux huy huz ⊢
    try split_ifs at hux huy huz ⊢
    all_goals first | omega | trivial | exact not_false
  rcases h with hc | h
  · obtain ⟨hx, hy, hz⟩ := hc
    rw [hx] at hux ⊢
    rw [hy] at huy ⊢
    rw [hz] at huz ⊢
    simp only [es1, es2, es3, ea1, ea2, ea3, or_true, true_or, and_true, true_and] at hux huy huz ⊢
    try split_ifs at hux huy huz ⊢
    all_goals first | omega | trivial | exact not_false
  rcases h with hc | h
  · obtain ⟨hx, hy, hz⟩ := hc
    rw [hx] at hux ⊢
    rw [hy] at huy ⊢
    rw [hz] at huz ⊢
    simp only [es1, es2, es3, ea1, ea2, ea3, or_true, true_or, and_true, true_and] at hux huy huz ⊢
    try split_ifs at hux huy huz ⊢
    all_goals first | omega | trivial | exact not_false
  obtain ⟨hx, hy, hz⟩ := h
  rw [hx] at hux ⊢
  rw [hy] at huy ⊢
  rw [hz] at huz ⊢
  simp only [es1, es2, es3, ea1, ea2, ea3, or_true, true_or, and_true, true_and] at hux huy huz ⊢
  try split_ifs at hux huy huz ⊢
  all_goals first | omega | trivial | exact not_false

theorem deep_mem_poss_vn_fwd (vx vy vz ux uy uz : Nat)
    (hvx : vx + 1 < usizeMod) (hvy : vy + 1 < usizeMod) (hvz : vz + 1 < usizeMod)
    (hux : ux + 1 < usizeMod) (huy : uy + 1 < usizeMod) (huz : uz + 1 < usizeMod)
    (h : Deep.Vec3.mk ux uy uz ∈ Deep.possNeighbors (Deep.Vec3.mk vx vy vz) Method.VonNeumann) :
    Deep.specAdjacent Method.VonNeumann (Deep.Vec3.mk vx vy vz) (Deep.Vec3.mk ux uy uz) := by
  have es1 := usizeSub_one vx (Nat.lt_of_succ_lt hvx)
  have es2 := usizeSub_one vy (Nat.lt_of_succ_lt hvy)
  have es3 := usizeSub_one vz (Nat.lt_of_succ_lt hvz)
  have ea1 := usizeAdd_one vx hvx
  have ea2 := usizeAdd_one vy hvy
  have ea3 := usizeAdd_one vz hvz
  rw [usizeMod_lit] at hvx hvy hvz hux huy huz es1 es2 es3
  simp only [Deep.specAdjacent]
  simp only [Deep.possNeighbors, List.cons_append, List.nil_append,
    List.append_nil, List.mem_cons, List.not_mem_nil, or_false,
    Deep.Vec3.mk.injEq] at h
  rcases h with hc | h
  · obtain ⟨hx, hy, hz⟩ := hc
    rw [hx] at hux ⊢
    rw [hy] at huy ⊢
    rw [hz] at huz ⊢
    simp only [es1, es2, es3, ea1, ea2, ea3, or_true, true_or, and_true, true_and] at hux huy huz ⊢
    try split_ifs at hux huy huz ⊢
    all_goals first | omega | trivial | exact not_false
  rcases h with hc | h
  · obtain ⟨hx, hy, hz⟩ := hc
    rw [hx] at hux ⊢
    rw [hy] at huy ⊢
    rw [hz] at huz ⊢
    simp only [es1, es2, es3, ea1, ea2, ea3, or_true, true_or, and_true, true_and] at hux huy huz ⊢
    try split_ifs at hux huy huz ⊢
    all_goals first | omega | trivial | exact not_false
  rcases h with hc | h
  · obtain ⟨hx, hy, hz⟩ := hc
    rw [hx] at hux ⊢
    rw [hy] at huy ⊢
    rw [hz] at huz ⊢
    simp only [es1, es2, es3, ea1, ea2, ea3, or_true, true_or, and_true, true_and] at hux huy huz ⊢
    try split_ifs at hux huy huz ⊢
    all_goals first | omega | trivial | exact not_false
  rcases h with hc | h
  · obtain ⟨hx, hy, hz⟩ := hc
    rw [hx] at hux ⊢
    rw [hy] at huy ⊢
    rw [hz] at huz ⊢
    simp only [es1, es2, es3, ea1, ea2, ea3, or_true, true_or, and_true, true_and] at hux huy huz ⊢
    try split_ifs at hux huy huz ⊢
    all_goals first | omega | trivial | exact not_false
  rcases h with hc | h
  · obtain ⟨hx, hy, hz⟩ := hc
    rw [hx] at hux ⊢
    rw [hy] at huy ⊢
    rw [hz] at huz ⊢
    simp only [es1, es2, es3, ea1, ea2, ea3, or_true, true_or, and_true, true_and] at hux huy huz ⊢
    try split_ifs at hux huy huz ⊢
    all_goals first | omega | trivial | exact not_false
  obtain ⟨hx, hy, hz⟩ := h
  rw [hx] at hux ⊢
  rw [hy] at huy ⊢
  rw [hz] at huz ⊢
  simp only [es1, es2, es3, ea1, ea2, ea3, or_true, true_or, and_true, true_and] at hux huy huz ⊢
  try split_ifs at hux huy huz ⊢
  all_goals first | omega | trivial | exact not_false

theorem deep_mem_poss_moore_bwd (vx vy vz ux uy uz : Nat)
    (hvx : vx + 1 < usizeMod) (hvy : vy + 1 < usizeMod) (hvz : vz + 1 < usizeMod)
    (hux : ux + 1 < usizeMod) (huy : uy + 1 < usizeMod) (huz : uz + 1 < usizeMod)
    (h : Deep.specAdjacent Method.Moore (Deep.Vec3.mk vx vy vz) (Deep.Vec3.mk ux uy uz)) :
    Deep.Vec3.mk ux uy uz ∈ Deep.possNeighbors (Deep.Vec3.mk vx vy vz) Method.Moore := by
  have es1 := usizeSub_one vx (Nat.lt_of_succ_lt hvx)
  have es2 := usizeSub_one vy (Nat.lt_of_succ_lt hvy)
  have es3 := usizeSub_one vz (Nat.lt_of_succ_lt hvz)
  have ea1 := usizeAdd_one vx hvx
  have ea2 := usizeAdd_one vy hvy
  have ea3 := usizeAdd_one vz hvz
  rw [usizeMod_lit] at hvx hvy hvz hux huy huz es1 es2 es3
  simp only [Deep.specAdjacent, Deep.Vec3.mk.injEq] at h
  obtain ⟨hx, hy, hz, hne⟩ := h
  rcases hx with hx | hx | hx
  · rcases hy with hy | hy | hy
    · rcases hz with hz | hz | hz
      · exact absurd ⟨hx, hy, hz⟩ hne
      · subst hx
        subst hy
        obtain rfl : usizeSub vz 1 = uz := by rw [es3]; split <;> omega
        simp [Deep.possNeighbors, List.mem_cons]
      · subst hx
        subst hy
        obtain rfl : usizeAdd vz 1 = uz := by rw [ea3]; omega
        simp [Deep.possNeighbors, List.mem_cons]
    · rcases hz with hz | hz | hz
      · subst hx
        obtain rfl : usizeSub vy 1 = uy := by rw [es2]; split <;> omega
        subst hz
        simp [Deep.possNeighbors, List.mem_cons]
      · subst hx
        obtain rfl : usizeSub vy 1 = uy := by rw [es2]; split <;> omega
        obtain rfl : usizeSub vz 1 = uz := by rw [es3]; split <;> omega
        simp [Deep.possNeighbors, List.mem_cons]
      · subst hx
        obtain rfl : usizeSub vy 1 = uy := by rw [es2]; split <;> omega
        obtain rfl : usizeAdd vz 1 = uz := by rw [ea3]; omega
        simp [Deep.possNeighbors, List.mem_cons]
    · rcases hz with hz | hz | hz
      · subst hx
        obtain rfl : usizeAdd vy 1 = uy := by rw [ea2]; omega
        subst hz
        simp [Deep.possNeighbors, List.mem_cons]
      · subst hx
        obtain rfl : usizeAdd vy 1 = uy := by rw [ea2]; omega
        obtain rfl : usizeSub vz 1 = uz := by rw [es3]; split <;> omega
        simp [Deep.possNeighbors, List.mem_cons]
      · subst hx
        obtain rfl : usizeAdd vy 1 = uy := by rw [ea2]; omega
        obtain rfl : usizeAdd vz 1 = uz := by rw [ea3]; omega
        simp [Deep.possNeighbors, List.mem_cons]
  · rcases hy with hy | hy | hy
    · rcases hz with hz | hz | hz
      · obtain rfl : usizeSub vx 1 = ux := by rw [es1]; split <;> omega
        subst hy
        subst hz
        simp [Deep.possNeighbors, List.mem_cons]
      · obtain rfl : usizeSub vx 1 = ux := by rw [es1]; split <;> omega
        subst hy
        obtain rfl : usizeSub vz 1 = uz := by rw [es3]; split <;> omega
        simp [Deep.possNeighbors, List.mem_cons]
      · obtain rfl : usizeSub vx 1 = ux := by rw [es1]; split <;> omega
        subst hy
        obtain rfl : usizeAdd vz 1 = uz := by rw [ea3]; omega
        simp [Deep.possNeighbors, List.mem_cons]
    · rcases hz with hz | hz | hz
      · obtain rfl : usizeSub vx 1 = ux := by rw [es1]; split <;> omega
        obtain rfl : usizeSub vy 1 = uy := by rw [es2]; split <;> omega
        subst hz
        simp [Deep.possNeighbors, List.mem_cons]
      · obtain rfl : usizeSub vx 1 = ux := by rw [es1]; split <;> omega
        obtain rfl : usizeSub vy 1 = uy := by rw [es2]; split <;> omega
        obtain rfl : usizeSub vz 1 = uz := by rw [es3]; split <;> omega
        simp [Deep.possNeighbors, List.mem_cons]
      · obtain rfl : usizeSub vx 1 = ux := by rw [es1]; split <;> omega
        obtain rfl : usizeSub vy 1 = uy := by rw [es2]; split <;> omega
        obtain rfl : usizeAdd vz 1 = uz := by rw [ea3]; omega
        simp [Deep.possNeighbors, List.mem_cons]
    · rcases hz with hz | hz | hz
      · obtain rfl : usizeSub vx 1 = ux := by rw [es1]; split <;> omega
        obtain rfl : usizeAdd vy 1 = uy := by rw [ea2]; omega
        subst hz
        simp [Deep.possNeighbors, List.mem_cons]
      · obtain rfl : usizeSub vx 1 = ux := by rw [es1]; split <;> omega
        obtain rfl : usizeAdd vy 1 = uy := by rw [ea2]; omega
        obtain rfl : usizeSub vz 1 = uz := by rw [es3]; split <;> omega
        simp [Deep.possNeighbors, List.mem_cons]
      · obtain rfl : usizeSub vx 1 = ux := by rw [es1]; split <;> omega
        obtain rfl : usizeAdd vy 1 = uy := by rw [ea2]; omega
        obtain rfl : usizeAdd vz 1 = uz := by rw [ea3]; omega
        simp [Deep.possNeighbors, List.mem_cons]
  · rcases hy with hy | hy | hy
    · rcases hz with hz | hz | hz
      · obtain rfl : usizeAdd vx 1 = ux := by rw [ea1]; omega
        subst hy
        subst hz
        simp [Deep.possNeighbors, List.mem_cons]
      · obtain rfl : usizeAdd vx 1 = ux := by rw [ea1]; omega
        subst hy
        obtain rfl : usizeSub vz 1 = uz := by rw [es3]; split <;> omega
        simp [Deep.possNeighbors, List.mem_cons]
      · obtain rfl : usizeAdd vx 1 = ux := by rw [ea1]; omega
        subst hy
        obtain rfl : usizeAdd vz 1 = uz := by rw [ea3]; omega
        simp [Deep.possNeighbors, List.mem_cons]
    · rcases hz with hz | hz | hz
      · obtain rfl : usizeAdd vx 1 = ux := by rw [ea1]; omega
        obtain rfl : usizeSub vy 1 = uy := by rw [es2]; split <;> omega
        subst hz
        simp [Deep.possNeighbors, List.mem_cons]
      · obtain rfl : usizeAdd vx 1 = ux := by rw [ea1]; omega
        obtain rfl : usizeSub vy 1 = uy := by rw [es2]; split <;> omega
        obtain rfl : usizeSub vz 1 = uz := by rw [es3]; split <;> omega
        simp [Deep.possNeighbors, List.mem_cons]
      · obtain rfl : usizeAdd vx 1 = ux := by rw [ea1]; omega
        obtain rfl : usizeSub vy 1 = uy := by rw [es2]; split <;> omega
        obtain rfl : usizeAdd vz 1 = uz := by rw [ea3]; omega
        simp [Deep.possNeighbors, List.mem_cons]
    · rcases hz with hz | hz | hz
      · obtain rfl : usizeAdd vx 1 = ux := by rw [ea1]; omega
        obtain rfl : usizeAdd vy 1 = uy := by rw [ea2]; omega
        subst hz
        simp [Deep.possNeighbors, List.mem_cons]
      · obtain rfl : usizeAdd vx 1 = ux := by rw [ea1]; omega
        obtain rfl : usizeAdd vy 1 = uy := by rw [ea2]; omega
        obtain rfl : usizeSub vz 1 = uz := by rw [es3]; split <;> omega
        simp [Deep.possNeighbors, List.mem_cons]
      · obtain rfl : usizeAdd vx 1 = ux := by rw [ea1]; omega
        obtain rfl : usizeAdd vy 1 = uy := by rw [ea2]; omega
        obtain rfl : usizeAdd vz 1 = uz := by rw [ea3]; omega
        simp [Deep.possNeighbors, List.mem_cons]

theorem deep_mem_poss_vn_bwd (vx vy vz ux uy uz : Nat)
    (hvx : vx + 1 < usizeMod) (hvy : vy + 1 < usizeMod) (hvz : vz + 1 < usizeMod)
    (hux : ux + 1 < usizeMod) (huy : uy + 1 < usizeMod) (huz : uz + 1 < usizeMod)
    (h : Deep.specAdjacent Method.VonNeumann (Deep.Vec3.mk vx vy vz) (Deep.Vec3.mk ux uy uz)) :
    Deep.Vec3.mk ux uy uz ∈ Deep.possNeighbors (Deep.Vec3.mk vx vy vz) Method.VonNeumann := by
  have es1 := usizeSub_one vx (Nat.lt_of_succ_lt hvx)
  have es2 := usizeSub_one vy (Nat.lt_of_succ_lt hvy)
  have es3 := usizeSub_one vz (Nat.lt_of_succ_lt hvz)
  have ea1 := usizeAdd_one vx hvx
  have ea2 := usizeAdd_one vy hvy
  have ea3 := usizeAdd_one vz hvz
  rw [usizeMod_lit] at hvx hvy hvz hux huy huz es1 es2 es3
  simp only [Deep.specAdjacent, Deep.Vec3.mk.injEq] at h
  rcases h with ⟨hx, hy, hz⟩ | ⟨hx, hy, hz⟩ | ⟨hx, hy, hz⟩
  · rcases hx with hx | hx
    · obtain rfl : usizeSub vx 1 = ux := by rw [es1]; split <;> omega
      subst hy
      subst hz
      simp [Deep.possNeighbors, List.mem_cons]
    · obtain rfl : usizeAdd vx 1 = ux := by rw [ea1]; omega
      subst hy
      subst hz
      simp [Deep.possNeighbors, List.mem_cons]
  · rcases hy with hy | hy
    · subst hx
      obtain rfl : usizeSub vy 1 = uy := by rw [es2]; split <;> omega
      subst hz
      simp [Deep.possNeighbors, List.mem_cons]
    · subst hx
      obtain rfl : usizeAdd vy 1 = uy := by rw [ea2]; omega
      subst hz
      simp [Deep.possNeighbors, List.mem_cons]
  · rcases hz with hz | hz
    · subst hx
      subst hy
      obtain rfl : usizeSub vz 1 = uz := by rw [es3]; split <;> omega
      simp [Deep.possNeighbors, List.mem_cons]
    · subst hx
      subst hy
      obtain rfl : usizeAdd vz 1 = uz := by rw [ea3]; omega
      simp [Deep.possNeighbors, List.mem_cons]

theorem deep_mem_possNeighbors (m : Method) (v u : Deep.Vec3)
    (hvx : v.x + 1 < usizeMod) (hvy : v.y + 1 < usizeMod) (hvz : v.z + 1 < usizeMod)
    (hux : u.x + 1 < usizeMod) (huy : u.y + 1 < usizeMod) (huz : u.z + 1 < usizeMod) :
    u ∈ Deep.possNeighbors v m ↔ Deep.specAdjacent m v u := by
  obtain ⟨vx, vy, vz⟩ := v
  obtain ⟨ux, uy, uz⟩ := u
  simp only [] at hvx hvy hvz hux huy huz
  cases m with
  | Moore => exact ⟨fun h => deep_mem_poss_moore_fwd vx vy vz ux uy uz hvx hvy hvz hux huy huz h,
      fun h => deep_mem_poss_moore_bwd vx vy vz ux uy uz hvx hvy hvz hux huy huz h⟩
  | VonNeumann => exact ⟨fun h => deep_mem_poss_vn_fwd vx vy vz ux uy uz hvx hvy hvz hux huy huz h,
      fun h => deep_mem_poss_vn_bwd vx vy vz ux uy uz hvx hvy hvz hux huy huz h⟩

theorem deep_nodup_possNeighbors (m : Method) (v : Deep.Vec3)
    (hvx : v.x + 1 < usizeMod) (hvy : v.y + 1 < usizeMod) (hvz : v.z + 1 < usizeMod) :
    (Deep.possNeighbors v m).Nodup := by
  obtain ⟨vx, vy, vz⟩ := v
  simp only [] at hvx hvy hvz
  cases m with
  | Moore => exact deep_nodup_poss_moore vx vy vz hvx hvy hvz
  | VonNeumann => exact deep_nodup_poss_vn vx vy vz hvx hvy hvz

theorem flat_liveAt_isSome (cells : List (Flat.Vec2 × Nat)) (u : Flat.Vec2)
    (h : Flat.liveAt cells u = true) : (lookup u cells).isSome = true := by
  unfold Flat.liveAt at h
  cases hc : lookup u cells with
  | none => rw [hc] at h; cases h
  | some s => rfl

theorem deep_liveAt_isSome (cells : List (Deep.Vec3 × Nat)) (u : Deep.Vec3)
    (h : Deep.liveAt cells u = true) : (lookup u cells).isSome = true := by
  unfold Deep.liveAt at h
  cases hc : lookup u cells with
  | none => rw [hc] at h; cases h
  | some s => rfl

theorem flat_count_in_bounds (a : Flat.Automaton)
    (hbx : a.bounds.x < usizeMod) (hby : a.bounds.y < usizeMod)
    (hex : ∀ u : Flat.Vec2,
      (lookup u a.cells).isSome = true ↔ (u.x < a.bounds.x ∧ u.y < a.bounds.y))
    (v : Flat.Vec2) (hvx : v.x < a.bounds.x) (hvy : v.y < a.bounds.y) :
    Flat.countLive a.cells (Flat.possNeighbors v a.rules.neighbor_method) =
      (Flat.boxList a.bounds).countP
        (fun u => decide (Flat.specAdjacent a.rules.neighbor_method v u) &&
          Flat.liveAt a.cells u) := by
  have hvx1 : v.x + 1 < usizeMod := by omega
  have hvy1 : v.y + 1 < usizeMod := by omega
  rw [Flat.countLive_eq_countP]
  refine countP_eq_countP _ _ _ _
    (flat_nodup_possNeighbors a.rules.neighbor_method v hvx1 hvy1)
    (Flat.nodup_boxList a.bounds) ?_
  intro u
  constructor
  · rintro ⟨hm, hl⟩
    have hub := (hex u).mp (flat_liveAt_isSome a.cells u hl)
    have hux1 : u.x + 1 < usizeMod := by omega
    have huy1 : u.y + 1 < usizeMod := by omega
    have hadj := (flat_mem_possNeighbors a.rules.neighbor_method v u
      hvx1 hvy1 hux1 huy1).mp hm
    refine ⟨(Flat.mem_boxList a.bounds u).mpr hub, ?_⟩
    rw [Bool.and_eq_true]
    exact ⟨decide_eq_true hadj, hl⟩
  · rintro ⟨hbox, hq⟩
    rw [Bool.and_eq_true] at hq
    obtain ⟨hd, hl⟩ := hq
    have hub := (Flat.mem_boxList a.bounds u).mp hbox
    have hux1 : u.x + 1 < usizeMod := by omega
    have huy1 : u.y + 1 < usizeMod := by omega
    exact ⟨(flat_mem_possNeighbors a.rules.neighbor_method v u
      hvx1 hvy1 hux1 huy1).mpr (of_decide_eq_true hd), hl⟩

theorem deep_count_in_bounds (a : Deep.Automaton)
    (hbx : a.bounds.x < usizeMod) (hby : a.bounds.y < usizeMod)
    (hbz : a.bounds.z < usizeMod)
    (hex : ∀ u : Deep.Vec3,
      (lookup u a.cells).isSome = true ↔
        (u.x < a.bounds.x ∧ u.y < a.bounds.y ∧ u.z < a.bounds.z))
    (v : Deep.Vec3) (hvx : v.x < a.bounds.x) (hvy : v.y < a.bounds.y)
    (hvz : v.z < a.bounds.z) :
    Deep.countLive a.cells (Deep.possNeighbors v a.rules.neighbor_method) =
      (Deep.boxList a.bounds).countP
        (fun u => decide (Deep.specAdjacent a.rules.neighbor_method v u) &&
          Deep.liveAt a.cells u) := by
  have hvx1 : v.x + 1 < usizeMod := by omega
  have hvy1 : v.y + 1 < usizeMod := by omega
  have hvz1 : v.z + 1 < usizeMod := by omega
  rw [Deep.countLive_eq_countP_d]
  refine countP_eq_countP _ _ _ _
    (deep_nodup_possNeighbors a.rules.neighbor_method v hvx1 hvy1 hvz1)
    (Deep.nodup_boxList_d a.bounds) ?_
  intro u
  constructor
  · rintro ⟨hm, hl⟩
    have hub := (hex u).mp (deep_liveAt_isSome a.cells u hl)
    have hux1 : u.x + 1 < usizeMod := by omega
    have huy1 : u.y + 1 < usizeMod := by omega
    have huz1 : u.z + 1 < usizeMod := by omega
    have hadj := (deep_mem_possNeighbors a.rules.neighbor_method v u
      hvx1 hvy1 hvz1 hux1 huy1 huz1).mp hm
    refine ⟨(Deep.mem_boxList_d a.bounds u).mpr hub, ?_⟩
    rw [Bool.and_eq_true]
    exact ⟨decide_eq_true hadj, hl⟩
  · rintro ⟨hbox, hq⟩
    rw [Bool.and_eq_true] at hq
    obtain ⟨hd, hl⟩ := hq
    have hub := (Deep.mem_boxList_d a.bounds u).mp hbox
    have hux1 : u.x + 1 < usizeMod := by omega
    have huy1 : u.y + 1 < usizeMod := by omega
    have huz1 : u.z + 1 < usizeMod := by omega
    exact ⟨(deep_mem_possNeighbors a.rules.neighbor_method v u
      hvx1 hvy1 hvz1 hux1 huy1 huz1).mpr (of_decide_eq_true hd), hl⟩

theorem flat_new_isSome (rules : AutomataRules) (bounds : Flat.Vec2)
    (seed : List Flat.Vec2) (a : Flat.Automaton)
    (h : Flat.Automaton.new rules bounds seed = Except.ok a) :
    ∀ u : Flat.Vec2,
      (lookup u a.cells).isSome = true ↔ (u.x < a.bounds.x ∧ u.y < a.bounds.y) := by
  have hb : a.bounds = bounds := by
    rw [Flat.new_ok_elim rules bounds seed a h]
  intro u
  rw [Flat.lookup_new rules bounds seed a h u, hb]
  by_cases hu : u.x < bounds.x ∧ u.y < bounds.y
  · simp [hu]
  · simp [hu]

theorem deep_new_isSome (rules : AutomataRules) (bounds : Deep.Vec3)
    (seed : List Deep.Vec3) (a : Deep.Automaton)
    (h : Deep.Automaton.new rules bounds seed = Except.ok a) :
    ∀ u : Deep.Vec3,
      (lookup u a.cells).isSome = true ↔
        (u.x < a.bounds.x ∧ u.y < a.bounds.y ∧ u.z < a.bounds.z) := by
  have hb : a.bounds = bounds := by
    rw [Deep.new_ok_elim_d rules bounds seed a h]
  intro u
  rw [Deep.lookup_new_d rules bounds seed a h u, hb]
  by_cases hu : u.x < bounds.x ∧ u.y < bounds.y ∧ u.z < bounds.z
  · simp [hu]
  · simp [hu]

/-- C2 counterexample: the candidates built by tick at the edge cell
(0,0) are not filtered before lookup: the list contains the coordinate
(0, 2^64 - 1) produced by wrapping unsigned subtraction, which is not
adjacent to (0,0) in the specification sense, so a wrapped out-of-range
position is passed to the map lookup rather than being discarded. -/
theorem c2_wrap_not_discarded :
    Flat.Vec2.mk 0 18446744073709551615 ∈
      Flat.possNeighbors (Flat.Vec2.mk 0 0) Method.Moore ∧
    ¬ Flat.specAdjacent Method.Moore (Flat.Vec2.mk 0 0)
        (Flat.Vec2.mk 0 18446744073709551615) := by
  constructor
  · have : usizeSub 0 1 = 18446744073709551615 := by decide
    simp [Flat.possNeighbors, this]
  · intro hadj
    simp only [Flat.specAdjacent] at hadj
    omega

/-- C2 (amended): neighbor candidates at a coordinate with a component
equal to 0 are not discarded before lookup; the unsigned subtraction
wraps the component to 2^64 - 1.  Because every key of a dense cell map
has components strictly below the bounds, which fit in usize, the
wrapped candidates are never keys, and the count computed for every
edge cell still equals the number of in-bounds coordinates adjacent to
it (under the chosen method) whose pre-tick state is positive. -/
theorem c2_edge_neighbor_count :
    (∀ (a : Flat.Automaton),
      a.bounds.x < usizeMod → a.bounds.y < usizeMod →
      (∀ u : Flat.Vec2,
        (lookup u a.cells).isSome = true ↔
          (u.x < a.bounds.x ∧ u.y < a.bounds.y)) →
      ∀ v : Flat.Vec2, v.x < a.bounds.x → v.y < a.bounds.y →
        (v.x = 0 ∨ v.y = 0) →
        Flat.countLive a.cells (Flat.possNeighbors v a.rules.neighbor_method) =
          (Flat.boxList a.bounds).countP
            (fun u => decide (Flat.specAdjacent a.rules.neighbor_method v u) &&
              Flat.liveAt a.cells u)) ∧
    (∀ (a : Deep.Automaton),
      a.bounds.x < usizeMod → a.bounds.y < usizeMod → a.bounds.z < usizeMod →
      (∀ u : Deep.Vec3,
        (lookup u a.cells).isSome = true ↔
          (u.x < a.bounds.x ∧ u.y < a.bounds.y ∧ u.z < a.bounds.z)) →
      ∀ v : Deep.Vec3, v.x < a.bounds.x → v.y < a.bounds.y → v.z < a.bounds.z →
        (v.x = 0 ∨ v.y = 0 ∨ v.z = 0) →
        Deep.countLive a.cells (Deep.possNeighbors v a.rules.neighbor_method) =
          (Deep.boxList a.bounds).countP
            (fun u => decide (Deep.specAdjacent a.rules.neighbor_method v u) &&
              Deep.liveAt a.cells u)) :=
  ⟨fun a hbx hby hex v hvx hvy _ =>
    flat_count_in_bounds a hbx hby hex v hvx hvy,
   fun a hbx hby hbz hex v hvx hvy hvz _ =>
    deep_count_in_bounds a hbx hby hbz hex v hvx hvy hvz⟩

/-- C2 witness: the amended count characterization evaluated at the
edge cell (0,0) of a concrete 2D automaton and the edge cell (0,0,0) of
a concrete 3D automaton, both built by new. -/
theorem c2_edge_neighbor_count_witness :
    Flat.countLive sampleFlatNew.cells
        (Flat.possNeighbors (Flat.Vec2.mk 0 0)
          sampleFlatNew.rules.neighbor_method) =
      (Flat.boxList sampleFlatNew.bounds).countP
        (fun u => decide (Flat.specAdjacent
            sampleFlatNew.rules.neighbor_method (Flat.Vec2.mk 0 0) u) &&
          Flat.liveAt sampleFlatNew.cells u) ∧
    Deep.countLive sampleDeepNew.cells
        (Deep.possNeighbors (Deep.Vec3.mk 0 0 0)
          sampleDeepNew.rules.neighbor_method) =
      (Deep.boxList sampleDeepNew.bounds).countP
        (fun u => decide (Deep.specAdjacent
            sampleDeepNew.rules.neighbor_method (Deep.Vec3.mk 0 0 0) u) &&
          Deep.liveAt sampleDeepNew.cells u) :=
  ⟨c2_edge_neighbor_count.1 sampleFlatNew (by decide) (by decide)
     (flat_new_isSome conwayRules (Flat.Vec2.mk 2 2) [Flat.Vec2.mk 0 0]
       sampleFlatNew (by rfl))
     (Flat.Vec2.mk 0 0) (by decide) (by decide) (Or.inl rfl),
   c2_edge_neighbor_count.2 sampleDeepNew (by decide) (by decide) (by decide)
     (deep_new_isSome vnRules (Deep.Vec3.mk 1 1 2) [Deep.Vec3.mk 0 0 1]
       sampleDeepNew (by rfl))
     (Deep.Vec3.mk 0 0 0) (by decide) (by decide) (by decide) (Or.inl rfl)⟩
